import Mathlib

/-!
Shallow embedding of the `uavs_analysis` predictive-model core:

* `PF` models a pandas/numpy float cell: either an exact rational value or NaN
  (`PF.nan`); arithmetic propagates NaN as IEEE floats do (rounding idealised
  to exact rational arithmetic).
* `Df` models a `pandas.DataFrame`: a column-name list, an index-label list
  and positionally ordered rows.
* `ModelVariant` models the overridable hooks of `APredictiveModel`
  (`predictors_list`, `spec_model_calc`, `transform_power`,
  `retransform_power`); `train`, `forecast` and `print_training_results` are
  translated from `scripts/models/abc_predictive_model.py`.
* `FinalModel` (`scripts/models/final_model.py`) supplies the concrete hooks;
  its power transforms are additionally embedded over the reals
  (`FinalModel.transform_power`, `FinalModel.retransform_power`) where the
  fractional powers are exact.
* The evaluator metrics of `scripts/tools/tests_maker.py::_model_evaluation`
  are embedded over exact rationals.

External library routines whose numeric content the repository does not
contain (`np.linalg.lstsq`, `np.sqrt`, float `**`) are parameters of the
embedding, so every theorem about the pipeline holds for any implementation
of them.

In-place mutation of the caller's `DataFrame` (the column assignments at the
top of `FinalModel.spec_model_calc`) is made explicit: `spec_model_calc`
returns the pair (caller-visible frame after the call, frame handed on to the
rest of the pipeline), and `train` / `forecast` likewise return the
caller-visible state of their frame arguments next to their result.
-/

/-- A pandas/numpy float cell: an exact rational, or NaN. -/
inductive PF where
  | num (q : ℚ)
  | nan
deriving DecidableEq, Repr

namespace PF

/-- Addition, propagating NaN. -/
def add : PF → PF → PF
  | num a, num b => num (a + b)
  | _, _ => nan

/-- Subtraction, propagating NaN. -/
def sub : PF → PF → PF
  | num a, num b => num (a - b)
  | _, _ => nan

/-- Multiplication, propagating NaN. -/
def mul : PF → PF → PF
  | num a, num b => num (a * b)
  | _, _ => nan

/-- Division by a rational scalar (used for `diff() / delta_time`). -/
def divC (v : PF) (c : ℚ) : PF :=
  match v with
  | num a => num (a / c)
  | nan => nan

/-- Lift a unary external numeric routine (e.g. `np.sqrt`) to cells;
NaN propagates. -/
def lift1 (f : ℚ → ℚ) : PF → PF
  | num a => num (f a)
  | nan => nan

/-- `cell == True` in pandas: `True` coerces to 1, and `NaN == True` is
`False`. -/
def eqTrue : PF → Bool
  | num a => a == 1
  | nan => false

/-- `cell == False` in pandas: `False` coerces to 0, and `NaN == False` is
`False`. -/
def eqFalse : PF → Bool
  | num a => a == 0
  | nan => false

/-- Is the cell an actual number (not NaN)? -/
def isNum : PF → Bool
  | num _ => true
  | nan => false

/-- Tail part of `diffList`: each entry minus its predecessor. -/
def diffAux : PF → List PF → List PF
  | _, [] => []
  | p, y :: ys => y.sub p :: diffAux y ys

/-- `pandas.Series.diff()`: first entry NaN, then consecutive differences. -/
def diffList : List PF → List PF
  | [] => []
  | x :: xs => nan :: diffAux x xs

/-- List sum of cells (NaN-propagating), used for closed forms. -/
def sumList (l : List PF) : PF := l.foldl add (num 0)

/-- `pandas.Series.mean()` with the default `skipna=True`: mean of the
non-NaN entries, NaN if there are none. -/
def seriesMean (vs : List PF) : PF :=
  let qs := vs.filterMap (fun v => match v with | num q => some q | nan => none)
  if qs.isEmpty then nan else num (qs.sum / qs.length)

end PF

/-! ## DataFrames -/

/-- Position of a column name in a column list (`len` when absent, as the
first out-of-range position). -/
def colPos : List String → String → ℕ
  | [], _ => 0
  | c :: cs, s => if c = s then 0 else colPos cs s + 1

/-- Value of column `c` in row `r` laid out along `cols` (NaN when the
column is absent, which well-formed callers never rely on). -/
def rowGet (cols : List String) (r : List PF) (c : String) : PF :=
  r.getD (colPos cols c) PF.nan

/-- A `pandas.DataFrame`: named columns, index labels, positional rows
(each row a list of cells aligned with `cols`). -/
structure Df where
  cols : List String
  idx : List Int
  rows : List (List PF)
deriving DecidableEq, Repr

namespace Df

/-- Column `c` as a positional list of cells. -/
def getCol (df : Df) (c : String) : List PF :=
  df.rows.map (fun r => rowGet df.cols r c)

/-- `df[c] = vs` for a same-length value list: overwrite the column in place
when present, else append it as the last column. -/
def setCol (df : Df) (c : String) (vs : List PF) : Df :=
  if c ∈ df.cols then
    { df with rows := List.zipWith (fun r v => r.set (colPos df.cols c) v) df.rows vs }
  else
    { df with cols := df.cols ++ [c],
              rows := List.zipWith (fun r v => r ++ [v]) df.rows vs }

/-- `df.dropna()`: keep only the rows with no NaN cell (labels kept). -/
def dropna (df : Df) : Df :=
  let keep := (df.idx.zip df.rows).filter (fun p => p.2.all PF.isNum)
  { df with idx := keep.map Prod.fst, rows := keep.map Prod.snd }

/-- `df.reset_index(drop=True)`: relabel rows `0, 1, 2, …`. -/
def resetIndex (df : Df) : Df :=
  { df with idx := (List.range df.rows.length).map Int.ofNat }

/-- Boolean-mask row filter (e.g. `dfs[dfs['is_moving'] == True]`);
keeps labels of the surviving rows. -/
def filterRows (df : Df) (p : List PF → Bool) : Df :=
  let keep := (df.idx.zip df.rows).filter (fun q => p q.2)
  { df with idx := keep.map Prod.fst, rows := keep.map Prod.snd }

/-- `pd.concat(dfs, ignore_index=True)` for a nonempty list: row blocks in
input order, fresh `0..n-1` labels, columns of the first frame (the
training frames share one schema). -/
def concatIgnoreIndex (d : Df) (ds : List Df) : Df :=
  let rows := d.rows ++ ds.flatMap Df.rows
  { cols := d.cols, idx := (List.range rows.length).map Int.ofNat, rows := rows }

/-- Schema well-formedness: every row has one cell per column. -/
def WF (df : Df) : Prop := ∀ r ∈ df.rows, r.length = df.cols.length

instance (df : Df) : Decidable df.WF :=
  decidable_of_iff (∀ r ∈ df.rows, r.length = df.cols.length) Iff.rfl

end Df

/-- The derived feature columns `FinalModel.spec_model_calc` writes, in
assignment order. -/
def derivedNames : List String :=
  ["xy_air_speed", "xy_air_acceleration", "z_acceleration", "force_z",
   "force_xy", "velocity_xy_factor", "velocity_z_factor"]

/-- A `pandas.Series`: index labels and positional values. -/
structure PSeries where
  idx : List Int
  vals : List PF
deriving DecidableEq, Repr

/-! ## Evaluator metrics (`scripts/tools/tests_maker.py`) -/

/-- Running cumulative sums starting from `acc` (helper for `cumsum`). -/
def cumsumFrom (acc : ℚ) : List ℚ → List ℚ
  | [] => []
  | x :: xs => (acc + x) :: cumsumFrom (acc + x) xs

/-- `Series.cumsum()` over exact rationals. -/
def cumsum (l : List ℚ) : List ℚ := cumsumFrom 0 l

/-- `np.mean` over exact rationals (callers keep the list nonempty). -/
def npMean (l : List ℚ) : ℚ := l.sum / l.length

/-- The metrics printed and stored by `TestsMaker._model_evaluation`. -/
structure EvalMetrics where
  mae : ℚ
  mape : ℚ
  maeCum : ℚ
  mapeCum : ℚ
  r2 : PF
  r2Cum : PF
  ae : ℚ
  ape : ℚ
  results : List ℚ
deriving DecidableEq, Repr

/-- `TestsMaker._model_evaluation` (lines 122-147): pointwise and cumulative
MAE/MAPE, the two R² scores (NaN when the total sum of squares is zero), the
trailing absolute error and absolute percentage error of cumulative energy,
and the updated results list (`self.results.append(ape)`). -/
def modelEvaluation (results : List ℚ)
    (energy energyPred energyCum energyPredCum : List ℚ) : EvalMetrics :=
  let mae := npMean ((List.zipWith (fun a b => a - b) energy energyPred).map (|·|))
  let masked := (energy.zip energyPred).filter (fun p => p.1 ≠ 0)
  let mape := npMean (masked.map (fun p => |(p.1 - p.2) / p.1|)) * 100
  let maeCum := npMean ((List.zipWith (fun a b => a - b) energyCum energyPredCum).map (|·|))
  let maskedCum := (energyCum.zip energyPredCum).filter (fun p => p.1 ≠ 0)
  let mapeCum := npMean (maskedCum.map (fun p => |(p.1 - p.2) / p.1|)) * 100
  let ssRes := ((List.zipWith (fun a b => a - b) energy energyPred).map (fun d => d ^ 2)).sum
  let ssTot := ((energy.map (fun a => a - npMean energy)).map (fun d => d ^ 2)).sum
  let r2 := if ssTot ≠ 0 then PF.num (1 - ssRes / ssTot) else PF.nan
  let ssResCum := ((List.zipWith (fun a b => a - b) energyCum energyPredCum).map (fun d => d ^ 2)).sum
  let ssTotCum := ((energyCum.map (fun a => a - npMean energyCum)).map (fun d => d ^ 2)).sum
  let r2Cum := if ssTotCum ≠ 0 then PF.num (1 - ssResCum / ssTotCum) else PF.nan
  let ae := |energyCum.getD (energyCum.length - 1) 0 -
              energyPredCum.getD (energyCum.length - 1) 0|
  let ape := ae / energyCum.getD (energyCum.length - 1) 0 * 100
  ⟨mae, mape, maeCum, mapeCum, r2, r2Cum, ae, ape, results ++ [ape]⟩

/-- The metric pass of `TestsMaker._execute_test` on one flight: the
cumulative series are the running sums of the per-step energies
(lines 238-244) and `_model_evaluation` is run on the four series. -/
def evaluateFlightMetrics (results : List ℚ) (energy energyPred : List ℚ) :
    EvalMetrics :=
  modelEvaluation results energy energyPred (cumsum energy) (cumsum energyPred)

/-! ## The predictive-model framework (`scripts/models/abc_predictive_model.py`) -/

/-- The overridable hooks of `APredictiveModel` that a model variant
supplies: `predictors_list`, `spec_model_calc`, `transform_power`,
`retransform_power`.  `spec_model_calc` returns (caller-visible frame after
the call, frame handed on), making the in-place column mutation explicit;
the two power transforms act elementwise. -/
structure ModelVariant where
  predictorsList : List String
  specModelCalc : Df → Df × Df
  transformPower : PF → PF
  retransformPower : PF → PF

/-- The fitted state of `APredictiveModel`: `_beta` and `_default_usage`,
both `None` until `train` has run. -/
structure PModel where
  beta : Option (List PF)
  defaultUsage : Option PF
deriving DecidableEq, Repr

/-- A freshly constructed model (`APredictiveModel.__init__`). -/
def untrainedModel : PModel := { beta := none, defaultUsage := none }

/-- The shape of `np.linalg.lstsq`'s solution component: an external
least-squares routine mapping a design matrix and a target vector to a
coefficient vector.  The pipeline theorems hold for every such routine. -/
def LstsqFn : Type := List (List PF) → List PF → List PF

deriving instance DecidableEq for Except

/-- The only failure `train` handles itself: `pd.concat` raising
`ValueError`, caught and turned into an abort (print + `exit(-1)`). -/
inductive TrainError where
  | emptyTrainingSet
deriving DecidableEq, Repr

/-- Steps 1-3 of `train` on a nonempty transformed list: concatenate with
`ignore_index=True` and add the column
`power_indicator = transform_power(voltage * current)`. -/
def combinedWithPower (v : ModelVariant) (t : Df) (ts : List Df) : Df :=
  let dfs0 := Df.concatIgnoreIndex t ts
  let power := (List.zipWith PF.mul (dfs0.getCol "voltage")
      (dfs0.getCol "current")).map v.transformPower
  dfs0.setCol "power_indicator" power

/-- The combined, power-annotated training frame `train` works on (the
empty frame when the input list is empty, where `train` aborts instead). -/
def trainingCombined (v : ModelVariant) (dfsList : List Df) : Df :=
  match dfsList.map (fun d => (v.specModelCalc d).2) with
  | [] => ⟨[], [], []⟩
  | t :: ts => combinedWithPower v t ts

/-- `df1 = dfs[dfs['is_moving'] == True]`. -/
def movingSubset (df : Df) : Df :=
  df.filterRows (fun r => PF.eqTrue (rowGet df.cols r "is_moving"))

/-- `df2 = dfs[dfs['is_moving'] == False]`. -/
def stationarySubset (df : Df) : Df :=
  df.filterRows (fun r => PF.eqFalse (rowGet df.cols r "is_moving"))

/-- The design matrix of the moving subset: predictor columns in
`predictors_list` order with the prepended column of ones
(`np.hstack([np.ones(...), X])`). -/
def designMatrix (v : ModelVariant) (df1 : Df) : List (List PF) :=
  df1.rows.map
    (fun r => PF.num 1 :: v.predictorsList.map (fun p => rowGet df1.cols r p))

/-- `APredictiveModel.train` (lines 132-191).  Transforms each frame with
`spec_model_calc`, concatenates (`pd.concat` raises only when the list is
empty), computes the power-indicator column, splits on `is_moving`, builds
the intercept-augmented design matrix from the moving subset and hands it to
the least-squares routine, and takes the stationary mean (which pandas
reports as NaN on an empty subset).  Returns the result next to the
caller-visible list of frames (mutated in place by `spec_model_calc`). -/
def train (v : ModelVariant) (lstsq : LstsqFn) (dfsList : List Df) :
    Except TrainError PModel × List Df :=
  let callerView := dfsList.map (fun d => (v.specModelCalc d).1)
  match dfsList.map (fun d => (v.specModelCalc d).2) with
  | [] => (Except.error TrainError.emptyTrainingSet, callerView)
  | t :: ts =>
    let dfs := combinedWithPower v t ts
    let df1 := movingSubset dfs
    let df2 := stationarySubset dfs
    (Except.ok { beta := some (lstsq (designMatrix v df1) (df1.getCol "power_indicator")),
                 defaultUsage := some (PF.seriesMean (df2.getCol "power_indicator")) },
     callerView)

/-- The predictor loop of `forecast`
(`power[mask] += df.loc[mask, predictor] * self.beta[i + 1]`), one masked
in-place increment per predictor, `i` counting from `0`. -/
def applyPredictors (cols : List String) (b : List PF) (mask : List Bool)
    (rows : List (List PF)) : List String → ℕ → List PF → List PF
  | [], _, vals => vals
  | p :: ps, i, vals =>
      applyPredictors cols b mask rows ps (i + 1)
        (List.zipWith (fun mr w =>
            if mr.1 then w.add ((rowGet cols mr.2 p).mul (b.getD (i + 1) PF.nan))
            else w)
          (mask.zip rows) vals)

/-- `APredictiveModel.forecast` (lines 193-225).  Applies `spec_model_calc`
(mutating the caller's frame), seeds the output series with
`_default_usage` (a `None` default becomes a NaN-valued series, with no
error), then on the moving mask assigns `beta[0]` — the `beta` property
raising the not-trained error when `_beta is None` — runs the predictor
loop, and retransforms elementwise.  Returns the series (or the error) next
to the caller-visible frame. -/
def forecast (v : ModelVariant) (m : PModel) (df : Df) :
    Except String PSeries × Df :=
  let pr := v.specModelCalc df
  let callerView := pr.1
  let tdf := pr.2
  let du : PF := match m.defaultUsage with | some u => u | none => PF.nan
  let vals0 := List.replicate tdf.rows.length du
  let mask := tdf.rows.map (fun r => PF.eqTrue (rowGet tdf.cols r "is_moving"))
  match m.beta with
  | none => (Except.error "Beta is not initialized. Train model first.", callerView)
  | some b =>
    let vals1 := List.zipWith (fun mr w => if mr then b.getD 0 PF.nan else w)
        mask vals0
    let vals2 := applyPredictors tdf.cols b mask tdf.rows v.predictorsList 0 vals1
    (Except.ok { idx := tdf.idx, vals := vals2.map v.retransformPower }, callerView)

/-- `APredictiveModel.print_training_results` (lines 227-241): raises the
not-trained error when `_beta` or `_default_usage` is `None`, otherwise
reports each coefficient zipped with `'intercept' :: predictors` and the
stationary default usage. -/
def printTrainingResults (v : ModelVariant) (m : PModel) :
    Except String (List (PF × String) × PF) :=
  match m.beta, m.defaultUsage with
  | some b, some du => Except.ok (b.zip ("intercept" :: v.predictorsList), du)
  | _, _ => Except.error "Model is not trained. Train model first."

/-- `BaseLineModel` (`scripts/models/base_line_model.py`): inherits every
default hook — no predictors, identity `spec_model_calc` (so no caller
mutation), identity transforms. -/
def baseLineVariant : ModelVariant :=
  { predictorsList := [],
    specModelCalc := fun df => (df, df),
    transformPower := id,
    retransformPower := id }

/-! ## `FinalModel` (`scripts/models/final_model.py`) -/

/-- The external numeric routines `FinalModel` uses on cells: `np.sqrt`,
`x ** (2/3)` and `x ** (3/2)`. -/
structure FinalExt where
  sqrt : ℚ → ℚ
  pow23 : ℚ → ℚ
  pow32 : ℚ → ℚ

/-- `df['xy_air_speed'] = np.sqrt(vx² + vy²)` (line 105). -/
def speedVals (ext : FinalExt) (d : Df) : List PF :=
  List.zipWith (fun a b => PF.lift1 ext.sqrt ((a.mul a).add (b.mul b)))
    (d.getCol "vx_anemometer") (d.getCol "vy_anemometer")

/-- `df['xy_air_acceleration'] = np.sqrt((vx.diff()/Δt)² + (vy.diff()/Δt)²)`
(line 106). -/
def accVals (ext : FinalExt) (dt : ℚ) (d : Df) : List PF :=
  List.zipWith (fun a b => PF.lift1 ext.sqrt ((a.mul a).add (b.mul b)))
    ((PF.diffList (d.getCol "vx_anemometer")).map (fun w => w.divC dt))
    ((PF.diffList (d.getCol "vy_anemometer")).map (fun w => w.divC dt))

/-- `df['z_acceleration'] = vz_imu.diff() / Δt` (line 107). -/
def zaccVals (dt : ℚ) (d : Df) : List PF :=
  (PF.diffList (d.getCol "vz_imu")).map (fun w => w.divC dt)

/-- `df['force_z'] = z_acceleration * total_mass` (line 109). -/
def fzVals (d : Df) : List PF :=
  List.zipWith PF.mul (d.getCol "z_acceleration") (d.getCol "total_mass")

/-- `df['force_xy'] = xy_air_acceleration * total_mass` (line 110). -/
def fxyVals (d : Df) : List PF :=
  List.zipWith PF.mul (d.getCol "xy_air_acceleration") (d.getCol "total_mass")

/-- `df['velocity_xy_factor'] = xy_air_speed² * total_mass^(2/3)`
(line 112). -/
def vxyFactorVals (ext : FinalExt) (d : Df) : List PF :=
  List.zipWith (fun s m => (s.mul s).mul (PF.lift1 ext.pow23 m))
    (d.getCol "xy_air_speed") (d.getCol "total_mass")

/-- `df['velocity_z_factor'] = vz_imu² * total_mass^(2/3)` (line 113). -/
def vzFactorVals (ext : FinalExt) (d : Df) : List PF :=
  List.zipWith (fun w m => (w.mul w).mul (PF.lift1 ext.pow23 m))
    (d.getCol "vz_imu") (d.getCol "total_mass")

/-- `FinalModel.spec_model_calc` (lines 86-121), column by column in source
order: horizontal air speed, horizontal acceleration magnitude from finite
differences over `delta_time`, vertical acceleration, the two force columns,
the two velocity factors; then `dropna`, `reset_index(drop=True)`,
`df.loc[-1] = [0.0] * len(df.columns)` (which appends the all-zero row at
the tail with label `-1`) and `df.index += 1`.  First component: the
caller's frame after the in-place column assignments; second: the frame
returned. -/
def finalSpecModelCalc (ext : FinalExt) (dt : ℚ) (df0 : Df) : Df × Df :=
  let df1 := df0.setCol "xy_air_speed" (speedVals ext df0)
  let df2 := df1.setCol "xy_air_acceleration" (accVals ext dt df1)
  let df3 := df2.setCol "z_acceleration" (zaccVals dt df2)
  let df4 := df3.setCol "force_z" (fzVals df3)
  let df5 := df4.setCol "force_xy" (fxyVals df4)
  let df6 := df5.setCol "velocity_xy_factor" (vxyFactorVals ext df5)
  let df7 := df6.setCol "velocity_z_factor" (vzFactorVals ext df6)
  let dfDropped := (df7.dropna).resetIndex
  (df7,
   { cols := dfDropped.cols,
     idx := (dfDropped.idx ++ [-1]).map (fun i => i + 1),
     rows := dfDropped.rows ++ [List.replicate dfDropped.cols.length (PF.num 0)] })

/-- `FinalModel`'s predictor list (lines 30-44). -/
def finalPredictors : List String :=
  ["total_mass", "force_z", "force_xy", "velocity_xy_factor", "velocity_z_factor"]

/-- `FinalModel` as a variant: its predictors, feature derivation with time
step `dt` (`delta_time`, default 0.17), and the fractional-power transforms
lifted to cells through the external routines. -/
def finalVariant (ext : FinalExt) (dt : ℚ) : ModelVariant :=
  { predictorsList := finalPredictors,
    specModelCalc := finalSpecModelCalc ext dt,
    transformPower := PF.lift1 ext.pow23,
    retransformPower := PF.lift1 ext.pow32 }

/-- The power-indicator cell computed for one combined-frame row:
`transform_power(voltage * current)`. -/
def powerIndicatorVal (v : ModelVariant) (C : List String) (r : List PF) : PF :=
  v.transformPower ((rowGet C r "voltage").mul (rowGet C r "current"))

/-- The effect of `dfs['power_indicator'] = …` on one row of the combined
frame: overwrite the cell when the schema already has the column, else
append it. -/
def annotateRow (v : ModelVariant) (C : List String) (r : List PF) : List PF :=
  if "power_indicator" ∈ C then
    r.set (colPos C "power_indicator") (powerIndicatorVal v C r)
  else
    r ++ [powerIndicatorVal v C r]

/-- The combined frame's schema after the power-indicator assignment. -/
def annCols (C : List String) : List String :=
  if "power_indicator" ∈ C then C else C ++ ["power_indicator"]

/-- The moving-phase dot product of the claim, written as the sum over the
predictor list: with start offset `i`, the term for the `k`-th listed
predictor is `feature * beta[i + k + 1]`. -/
def movingDot (cols : List String) (b : List PF) (i : ℕ) :
    List String → List PF → PF
  | [], _ => PF.num 0
  | p :: ps, r =>
      ((rowGet cols r p).mul (b.getD (i + 1) PF.nan)).add (movingDot cols b (i + 1) ps r)

/-- Closed form of one forecast entry: for a moving row
`retransform_power(beta[0] + Σ_i beta[i+1] * feature_i)`, for every other
row `retransform_power(default_usage)`. -/
def forecastRowValue (v : ModelVariant) (b : List PF) (u : PF)
    (cols : List String) (r : List PF) : PF :=
  if PF.eqTrue (rowGet cols r "is_moving") then
    v.retransformPower ((b.getD 0 PF.nan).add (movingDot cols b 0 v.predictorsList r))
  else
    v.retransformPower u

/-! ## Concrete fixtures for closed checks -/

/-- Schema of the toy training frames used in the concrete checks. -/
def trainCols : List String := ["time", "voltage", "current", "is_moving"]

/-- A toy one-row, stationary-only flight frame. -/
def statOnlyDf : Df :=
  { cols := trainCols, idx := [0], rows := [[PF.num 1, PF.num 4, PF.num 3, PF.num 0]] }

/-- A zero-row frame carrying the training schema. -/
def emptyTrainingDf : Df := { cols := trainCols, idx := [], rows := [] }

/-- A toy two-row frame with one moving and one stationary row. -/
def mixedDf : Df :=
  { cols := trainCols, idx := [0, 1],
    rows := [[PF.num 0, PF.num 4, PF.num 2, PF.num 1],
             [PF.num 1, PF.num 4, PF.num 3, PF.num 0]] }

/-- A toy one-row stationary frame used as appended extra data. -/
def extraStatDf : Df :=
  { cols := trainCols, idx := [0], rows := [[PF.num 2, PF.num 2, PF.num 1, PF.num 0]] }

/-- A concrete stand-in for the external least-squares routine in closed
checks (numpy's solution on an empty system is the zero vector). -/
def lstsqZeros1 : LstsqFn := fun _ _ => [PF.num 0]

/-- A toy three-row stationary-only frame whose raw powers are `1, 2, 3`. -/
def threeStatDf : Df :=
  { cols := trainCols, idx := [0, 1, 2],
    rows := [[PF.num 0, PF.num 1, PF.num 1, PF.num 0],
             [PF.num 1, PF.num 1, PF.num 2, PF.num 0],
             [PF.num 2, PF.num 1, PF.num 3, PF.num 0]] }

/-- Stand-in external numeric routines for closed checks of properties that
do not depend on their values (column bookkeeping, row placement). -/
def idExt : FinalExt := { sqrt := id, pow23 := id, pow32 := id }

/-- Schema of the toy flight frames fed to the final model. -/
def flightCols : List String :=
  ["time", "voltage", "current", "is_moving", "vx_anemometer", "vy_anemometer",
   "vz_imu", "total_mass"]

/-- A toy two-row flight frame (second row moving, all kinematics zero). -/
def twoRowFlightDf : Df :=
  { cols := flightCols, idx := [0, 1],
    rows := [[PF.num 0, PF.num 5, PF.num 2, PF.num 0, PF.num 0, PF.num 0,
              PF.num 0, PF.num 1],
             [PF.num 1, PF.num 5, PF.num 2, PF.num 1, PF.num 0, PF.num 0,
              PF.num 0, PF.num 1]] }

/-- A toy already-trained model state for the five-predictor final model. -/
def toyTrainedModel : PModel :=
  { beta := some [PF.num 1, PF.num 0, PF.num 0, PF.num 0, PF.num 0, PF.num 0],
    defaultUsage := some (PF.num 4) }

/-! ## The reference variant's power transforms over the reals

`FinalModel.transform_power` / `FinalModel.retransform_power`
(src/scripts/models/final_model.py lines 46-84) are `power ** (2/3)` and
`power ** (3/2)`, embedded with the real power function. -/

namespace FinalModel

/-- `FinalModel.transform_power`: `power ** (2 / 3)`. -/
noncomputable def transform_power (power : ℝ) : ℝ := power ^ ((2 : ℝ) / 3)

/-- `FinalModel.retransform_power`: `power ** (3 / 2)`. -/
noncomputable def retransform_power (power : ℝ) : ℝ := power ^ ((3 : ℝ) / 2)

end FinalModel

/-! ## Theorems -/

namespace PF

@[simp] theorem add_num_num (a b : ℚ) : add (num a) (num b) = num (a + b) := rfl
@[simp] theorem add_nan_left (v : PF) : add nan v = nan := by cases v <;> rfl
@[simp] theorem add_nan_right (v : PF) : add v nan = nan := by cases v <;> rfl
@[simp] theorem mul_num_num (a b : ℚ) : mul (num a) (num b) = num (a * b) := rfl
@[simp] theorem sub_num_num (a b : ℚ) : sub (num a) (num b) = num (a - b) := rfl

@[simp] theorem add_zero_left (v : PF) : add (num 0) v = v := by
  cases v
  · simp [add]
  · rfl

theorem add_assoc (a b c : PF) : add (add a b) c = add a (add b c) := by
  cases a <;> cases b <;> cases c <;> simp [add, Rat.add_assoc]

@[simp] theorem add_zero_right (v : PF) : add v (num 0) = v := by
  cases v
  · simp [add]
  · rfl

end PF

/-- C7: for the reference variant the power-transform pair is an exact round
trip on the admissible domain: for every power `p ≥ 0`,
`retransform_power (transform_power p) = p`, the forward map being
`p ^ (2/3)` and the inverse `p ^ (3/2)`. -/
theorem C7_transform_round_trip (p : ℝ) (hp : 0 ≤ p) :
    FinalModel.retransform_power (FinalModel.transform_power p) = p := by
  unfold FinalModel.transform_power FinalModel.retransform_power
  rw [← Real.rpow_mul hp]
  norm_num

/-- C7 witness: the round trip at the spec's example `p = 8` (which maps
forward to `4` and back to `8`). -/
theorem C7_transform_round_trip_witness :
    (0 : ℝ) ≤ 8 ∧
      FinalModel.retransform_power (FinalModel.transform_power 8) = 8 :=
  ⟨by norm_num, C7_transform_round_trip 8 (by norm_num)⟩

/-- C2: on a freshly constructed model of any variant, `forecast` (for every
input frame) and `print_training_results` both fail with their not-trained
`RuntimeError`; neither returns a placeholder value. -/
theorem C2_untrained_errors (v : ModelVariant) (df : Df) :
    (forecast v untrainedModel df).1
        = Except.error "Beta is not initialized. Train model first." ∧
      printTrainingResults v untrainedModel
        = Except.error "Model is not trained. Train model first." :=
  ⟨rfl, rfl⟩

/-- C1 counterexample: a training set whose only row is stationary
(`is_moving = 0`).  The claim says `train` must raise the moving-phase
error; instead `train` completes, storing the coefficient vector that
`np.linalg.lstsq` returns on the empty system (for a 0-row design matrix
numpy returns the all-zero vector — here of length 1 for the no-predictor
baseline variant) and the stationary mean `5 * 2 = 10`. -/
theorem C1_counterexample :
    (train baseLineVariant (fun _ _ => [PF.num 0])
        [⟨["time", "voltage", "current", "is_moving"], [0],
          [[PF.num 0, PF.num 5, PF.num 2, PF.num 0]]⟩]).1
      = Except.ok { beta := some [PF.num 0], defaultUsage := some (PF.num 10) } := by
  simp [train, combinedWithPower, Df.concatIgnoreIndex, Df.setCol, Df.getCol,
    Df.filterRows, movingSubset, stationarySubset, designMatrix, rowGet, colPos,
    PF.seriesMean, PF.mul, PF.eqTrue, PF.eqFalse, baseLineVariant, List.flatMap,
    Function.comp, List.range_succ]
  norm_num

/-- C1 amended: when the combined feature-derived training set has no row
with `is_moving == True`, `train` does not fail: the least-squares routine
is called on the empty design matrix and empty target (numpy's documented
behaviour there is to return the all-zero vector), its result is stored as
the coefficient vector, and the stationary baseline is stored as usual. -/
theorem C1_amended_no_moving_rows (v : ModelVariant) (f : LstsqFn)
    (dfsList : List Df) (h1 : dfsList ≠ [])
    (h2 : ∀ r ∈ (trainingCombined v dfsList).rows,
        PF.eqTrue (rowGet (trainingCombined v dfsList).cols r "is_moving") = false) :
    (train v f dfsList).1
      = Except.ok
          { beta := some (f [] []),
            defaultUsage := some (PF.seriesMean
              ((stationarySubset (trainingCombined v dfsList)).getCol
                "power_indicator")) } := by
  unfold train
  cases hm : dfsList.map (fun d => (v.specModelCalc d).2) with
  | nil => exact absurd (List.map_eq_nil_iff.mp hm) h1
  | cons t ts =>
    have hcomb : trainingCombined v dfsList = combinedWithPower v t ts := by
      unfold trainingCombined
      rw [hm]
    rw [hcomb] at h2
    have hfil : movingSubset (combinedWithPower v t ts) =
        { combinedWithPower v t ts with idx := [], rows := [] } := by
      unfold movingSubset Df.filterRows
      have : (((combinedWithPower v t ts).idx.zip
          (combinedWithPower v t ts).rows).filter
            (fun q => PF.eqTrue (rowGet (combinedWithPower v t ts).cols q.2
              "is_moving"))) = [] := by
        apply List.filter_eq_nil_iff.mpr
        intro a ha
        have hmem := (List.of_mem_zip ha).2
        simp [h2 a.2 hmem]
      simp [this]
    simp only [hcomb, hfil]
    simp [designMatrix, Df.getCol]

/-- C1 witness for the amended statement: the baseline variant on the toy
stationary-only frame, with the zero-returning stand-in for the external
least-squares routine. -/
theorem C1_amended_no_moving_rows_witness :
    (([statOnlyDf] : List Df) ≠ [] ∧
        ∀ r ∈ (trainingCombined baseLineVariant [statOnlyDf]).rows,
          PF.eqTrue (rowGet (trainingCombined baseLineVariant [statOnlyDf]).cols
            r "is_moving") = false) ∧
      (train baseLineVariant lstsqZeros1 [statOnlyDf]).1
        = Except.ok
            { beta := some (lstsqZeros1 [] []),
              defaultUsage := some (PF.seriesMean
                ((stationarySubset (trainingCombined baseLineVariant [statOnlyDf])).getCol
                  "power_indicator")) } :=
  ⟨⟨by simp,
    by
      simp [trainingCombined, combinedWithPower, Df.concatIgnoreIndex, Df.setCol,
        Df.getCol, rowGet, colPos, PF.mul, PF.eqTrue, baseLineVariant, statOnlyDf,
        trainCols, List.flatMap, List.range_succ]⟩,
   C1_amended_no_moving_rows baseLineVariant lstsqZeros1 [statOnlyDf]
     (by simp)
     (by
       simp [trainingCombined, combinedWithPower, Df.concatIgnoreIndex, Df.setCol,
         Df.getCol, rowGet, colPos, PF.mul, PF.eqTrue, baseLineVariant, statOnlyDf,
         trainCols, List.flatMap, List.range_succ])⟩

/-- C3 counterexample: a nonempty list containing one zero-row frame.  The
concatenation of the transformed sets has zero total rows, yet `train` does
not abort: `pd.concat` raises only for an empty list of objects, so
training completes with the degenerate model (here the zero coefficient
vector from the empty least-squares system and a NaN stationary
baseline). -/
theorem C3_counterexample :
    (train baseLineVariant lstsqZeros1 [emptyTrainingDf]).1
      = Except.ok { beta := some [PF.num 0], defaultUsage := some PF.nan } := by
  simp [train, combinedWithPower, Df.concatIgnoreIndex, Df.setCol, Df.getCol,
    Df.filterRows, movingSubset, stationarySubset, designMatrix, rowGet, colPos,
    PF.seriesMean, PF.mul, PF.eqTrue, PF.eqFalse, baseLineVariant, lstsqZeros1,
    emptyTrainingDf, trainCols, List.flatMap, Function.comp, List.range_succ]

/-- C3 amended: `train` aborts with the empty-training-set error exactly
when the input list of frames is empty (the only case in which `pd.concat`
raises `ValueError`); for every nonempty list — even one whose frames all
have zero rows — training completes. -/
theorem C3_amended_abort_iff_empty_list (v : ModelVariant) (f : LstsqFn)
    (dfsList : List Df) :
    (train v f dfsList).1 = Except.error TrainError.emptyTrainingSet ↔
      dfsList = [] := by
  cases dfsList with
  | nil => simp [train]
  | cons d ds => simp [train]

theorem zipWith_map_same {α β γ δ : Type} (f : γ → δ → β) (g : α → γ)
    (l : List α) (k : α → δ) :
    List.zipWith f (l.map g) (l.map k) = l.map (fun a => f (g a) (k a)) := by
  rw [List.zipWith_map, List.zipWith_same]

theorem applyPredictors_eq_map (cols : List String) (b : List PF)
    (mfn : List PF → Bool) (rows : List (List PF)) (ps : List String) (i : ℕ)
    (f : List PF → PF) :
    applyPredictors cols b (rows.map mfn) rows ps i (rows.map f)
      = rows.map
          (fun r => if mfn r then (f r).add (movingDot cols b i ps r) else f r) := by
  induction ps generalizing i f with
  | nil => simp [applyPredictors, movingDot]
  | cons p ps ih =>
    have hz : ∀ rs : List (List PF),
        (rs.map mfn).zip rs = rs.map (fun r => (mfn r, r)) := by
      intro rs
      induction rs with
      | nil => rfl
      | cons a l ihz => simp [ihz]
    simp only [applyPredictors]
    rw [hz, zipWith_map_same]
    rw [ih]
    apply List.map_congr_left
    intro r _
    by_cases hm : mfn r
    · simp [hm, movingDot, PF.add_assoc]
    · simp [hm]

/-- C4: on a trained model (`beta = some b`, `default_usage = some u`),
`forecast` returns, for every input frame, the series indexed by the
feature-derived frame with one entry per row: the retransformed
`beta[0] + Σ_i beta[i+1] * feature_i` on rows with `is_moving == True`, and
the retransformed stationary default on all other rows. -/
theorem C4_forecast_closed_form (v : ModelVariant) (b : List PF) (u : PF) (df : Df) :
    (forecast v { beta := some b, defaultUsage := some u } df).1
      = Except.ok
          { idx := (v.specModelCalc df).2.idx,
            vals := (v.specModelCalc df).2.rows.map
              (forecastRowValue v b u (v.specModelCalc df).2.cols) } := by
  simp only [forecast]
  have hrep : List.replicate (v.specModelCalc df).2.rows.length u
      = (v.specModelCalc df).2.rows.map (fun _ => u) := by
    rw [List.map_const']
  rw [hrep, zipWith_map_same, applyPredictors_eq_map, List.map_map]
  refine congrArg _ (congrArg _ ?_)
  apply List.map_congr_left
  intro r _
  by_cases hm : PF.eqTrue (rowGet (v.specModelCalc df).2.cols r "is_moving")
  · simp [hm, forecastRowValue, Function.comp]
  · simp [hm, forecastRowValue, Function.comp]

theorem seriesMean_map_num (qs : List ℚ) :
    PF.seriesMean (qs.map PF.num)
      = if qs.length = 0 then PF.nan else PF.num (qs.sum / qs.length) := by
  have hfm : List.filterMap
      (fun v => match v with | PF.num q => some q | PF.nan => none)
      (qs.map PF.num) = qs := by
    induction qs with
    | nil => rfl
    | cons a l ih => simp [ih]
  simp only [PF.seriesMean, hfm, List.isEmpty_iff_length_eq_zero]

/-- C5: after a nonempty `train`, the stored stationary baseline is the mean
of the power-indicator column over the stationary (`is_moving == False`)
subset of the combined training set: with actual numeric values `qs` it is
exactly `sum qs / len qs` (so `(a+b+c)/3` for `[a, b, c]`), and with an
empty stationary subset training still completes and the baseline is NaN
rather than an error. -/
theorem C5_stationary_baseline (v : ModelVariant) (f : LstsqFn)
    (dfsList : List Df) (h1 : dfsList ≠ []) :
    ∃ m : PModel,
      (train v f dfsList).1 = Except.ok m ∧
        m.defaultUsage = some (PF.seriesMean
          ((stationarySubset (trainingCombined v dfsList)).getCol "power_indicator")) ∧
        ∀ qs : List ℚ,
          (stationarySubset (trainingCombined v dfsList)).getCol "power_indicator"
              = qs.map PF.num →
            m.defaultUsage
              = some (if qs.length = 0 then PF.nan
                      else PF.num (qs.sum / qs.length)) := by
  unfold train
  cases hm : dfsList.map (fun d => (v.specModelCalc d).2) with
  | nil => exact absurd (List.map_eq_nil_iff.mp hm) h1
  | cons t ts =>
    have hcomb : trainingCombined v dfsList = combinedWithPower v t ts := by
      unfold trainingCombined
      rw [hm]
    refine ⟨_, rfl, ?_, ?_⟩
    · rw [hcomb]
    · intro qs hqs
      rw [hcomb] at hqs
      simp only [hqs, seriesMean_map_num]

/-- C5 witness: the baseline variant trained on the toy three-row
stationary-only frame. -/
theorem C5_stationary_baseline_witness :
    (([threeStatDf] : List Df) ≠ []) ∧
      ∃ m : PModel,
        (train baseLineVariant lstsqZeros1 [threeStatDf]).1 = Except.ok m ∧
          m.defaultUsage = some (PF.seriesMean
            ((stationarySubset (trainingCombined baseLineVariant [threeStatDf])).getCol
              "power_indicator")) ∧
          ∀ qs : List ℚ,
            (stationarySubset (trainingCombined baseLineVariant [threeStatDf])).getCol
                "power_indicator" = qs.map PF.num →
              m.defaultUsage
                = some (if qs.length = 0 then PF.nan
                        else PF.num (qs.sum / qs.length)) :=
  ⟨by simp,
   C5_stationary_baseline baseLineVariant lstsqZeros1 [threeStatDf] (by simp)⟩

/-- The spec's numeric scenario for the baseline: stationary power-indicator
values `1, 2, 3` give the exact baseline `(1+2+3)/3 = 2`. -/
theorem train_baseline_arithmetic_example :
    (train baseLineVariant lstsqZeros1 [threeStatDf]).1
      = Except.ok { beta := some [PF.num 0], defaultUsage := some (PF.num 2) } := by
  simp [train, combinedWithPower, Df.concatIgnoreIndex, Df.setCol, Df.getCol,
    Df.filterRows, movingSubset, stationarySubset, designMatrix, rowGet, colPos,
    PF.seriesMean, PF.mul, PF.eqTrue, PF.eqFalse, baseLineVariant, lstsqZeros1,
    threeStatDf, trainCols, List.flatMap, Function.comp, List.range_succ]
  norm_num

theorem cumsumFrom_length (acc : ℚ) (l : List ℚ) :
    (cumsumFrom acc l).length = l.length := by
  induction l generalizing acc with
  | nil => rfl
  | cons x xs ih => simp [cumsumFrom, ih]

theorem cumsumFrom_getD_last (acc : ℚ) (l : List ℚ) (h : l ≠ []) :
    (cumsumFrom acc l).getD (l.length - 1) 0 = acc + l.sum := by
  induction l generalizing acc with
  | nil => exact absurd rfl h
  | cons x xs ih =>
    by_cases hxs : xs = []
    · simp [hxs, cumsumFrom]
    · have hlen : xs.length - 1 + 1 = xs.length := Nat.succ_pred_eq_of_pos
        (List.length_pos.mpr hxs)
    -- (x :: xs).length - 1 = xs.length
      have : (x :: xs).length - 1 = xs.length - 1 + 1 := by
        simp [hlen]
      rw [cumsumFrom, this, List.getD_cons_succ, ih (acc + x) hxs]
      simp [add_assoc]

theorem cumsum_getD_last (l : List ℚ) (h : l ≠ []) :
    (cumsum l).getD (l.length - 1) 0 = l.sum := by
  rw [cumsum, cumsumFrom_getD_last 0 l h, zero_add]

/-- C9: for per-step energy series of equal positive length, the evaluator's
MAE is the mean absolute difference of the per-step energies, and the
primary per-flight score appended to the results list is the trailing
absolute percentage error: the absolute difference between the final true
and final predicted cumulative energies (the series sums), divided by the
final true cumulative energy, times 100. -/
theorem C9_evaluation_metrics (results energy energyPred : List ℚ)
    (hlen : energyPred.length = energy.length) (hne : energy ≠ []) :
    (evaluateFlightMetrics results energy energyPred).mae
        = ((List.zipWith (fun a b => a - b) energy energyPred).map (|·|)).sum
            / energy.length ∧
      (evaluateFlightMetrics results energy energyPred).ape
        = |energy.sum - energyPred.sum| / energy.sum * 100 ∧
      (evaluateFlightMetrics results energy energyPred).results
        = results ++ [|energy.sum - energyPred.sum| / energy.sum * 100] := by
  have hcl : (cumsum energy).length = energy.length := cumsumFrom_length 0 energy
  have hne' : energyPred ≠ [] := by
    intro hcontra
    rw [hcontra] at hlen
    exact hne (List.length_eq_zero.mp hlen.symm)
  have h1 : (cumsum energy).getD ((cumsum energy).length - 1) 0 = energy.sum := by
    rw [hcl, cumsum_getD_last energy hne]
  have h2 : (cumsum energyPred).getD ((cumsum energy).length - 1) 0
      = energyPred.sum := by
    rw [hcl, ← hlen, cumsum_getD_last energyPred hne']
  have hmae : ((List.zipWith (fun a b => a - b) energy energyPred).map (|·|)).length
      = energy.length := by
    simp [hlen]
  refine ⟨?_, ?_, ?_⟩
  · simp only [evaluateFlightMetrics, modelEvaluation, npMean, hmae]
  · simp only [evaluateFlightMetrics, modelEvaluation, h1, h2]
  · simp only [evaluateFlightMetrics, modelEvaluation, h1, h2]

/-- C9 witness: the spec's end-to-end scenario, true per-step energy
`[10, 20, 30]` against predicted `[12, 18, 33]`. -/
theorem C9_evaluation_metrics_witness :
    (([12, 18, 33] : List ℚ).length = ([10, 20, 30] : List ℚ).length ∧
        ([10, 20, 30] : List ℚ) ≠ []) ∧
      ((evaluateFlightMetrics [] [10, 20, 30] [12, 18, 33]).mae
          = ((List.zipWith (fun a b => a - b) [10, 20, 30] [12, 18, 33]).map
              (|·|)).sum / ([10, 20, 30] : List ℚ).length ∧
        (evaluateFlightMetrics [] [10, 20, 30] [12, 18, 33]).ape
          = |([10, 20, 30] : List ℚ).sum - ([12, 18, 33] : List ℚ).sum|
              / ([10, 20, 30] : List ℚ).sum * 100 ∧
        (evaluateFlightMetrics [] [10, 20, 30] [12, 18, 33]).results
          = [] ++ [|([10, 20, 30] : List ℚ).sum - ([12, 18, 33] : List ℚ).sum|
              / ([10, 20, 30] : List ℚ).sum * 100]) :=
  ⟨⟨by simp, by simp⟩,
   C9_evaluation_metrics [] [10, 20, 30] [12, 18, 33] (by simp) (by simp)⟩

/-- The spec's numbers for the scenario: MAE `= 7/3 = 2.333…` and trailing
APE `= |60 - 63| / 60 * 100 = 5`, recorded in the results list. -/
theorem evaluation_metrics_article_example :
    (evaluateFlightMetrics [] [10, 20, 30] [12, 18, 33]).mae = 7 / 3 ∧
      (evaluateFlightMetrics [] [10, 20, 30] [12, 18, 33]).ape = 5 ∧
      (evaluateFlightMetrics [] [10, 20, 30] [12, 18, 33]).results = [5] := by
  norm_num [evaluateFlightMetrics, modelEvaluation, cumsum, cumsumFrom, npMean]

theorem zipWith_self_map {α β γ : Type} (h : α → β → γ) (l : List α) (k : α → β) :
    List.zipWith h l (l.map k) = l.map (fun a => h a (k a)) := by
  induction l with
  | nil => rfl
  | cons a t ih => simp [ih]

theorem combinedWithPower_eq (v : ModelVariant) (t : Df) (ts : List Df) :
    combinedWithPower v t ts
      = { cols := annCols t.cols,
          idx := (List.range (t.rows ++ ts.flatMap Df.rows).length).map Int.ofNat,
          rows := (t.rows ++ ts.flatMap Df.rows).map (annotateRow v t.cols) } := by
  unfold combinedWithPower Df.concatIgnoreIndex Df.setCol Df.getCol annCols
    annotateRow powerIndicatorVal
  by_cases h : "power_indicator" ∈ t.cols
  · simp only [h, if_true, zipWith_map_same, List.map_map, zipWith_self_map]
    rfl
  · simp only [h, if_false, zipWith_map_same, List.map_map, zipWith_self_map]
    rfl

theorem filterRows_map_snd (idx : List Int) (rows : List (List PF))
    (p : List PF → Bool) (h : idx.length = rows.length) :
    ((idx.zip rows).filter (fun q => p q.2)).map Prod.snd = rows.filter p := by
  induction rows generalizing idx with
  | nil => simp
  | cons r rs ih =>
    cases idx with
    | nil => simp at h
    | cons i is =>
      simp only [List.zip_cons_cons, List.filter_cons]
      by_cases hp : p r
      · simp [hp, ih is (by simpa using h)]
      · simp [hp, ih is (by simpa using h)]

theorem colPos_lt_length (C : List String) (s : String) (h : s ∈ C) :
    colPos C s < C.length := by
  induction C with
  | nil => simp at h
  | cons c cs ih =>
    by_cases hc : c = s
    · simp [colPos, hc]
    · have hs : s ∈ cs := by
        rcases List.mem_cons.mp h with h' | h'
        · exact absurd h'.symm hc
        · exact h'
      simp only [colPos, hc, if_false, List.length_cons]
      exact Nat.succ_lt_succ (ih hs)

theorem colPos_append (C D : List String) (s : String) (h : s ∈ C) :
    colPos (C ++ D) s = colPos C s := by
  induction C with
  | nil => simp at h
  | cons c cs ih =>
    by_cases hc : c = s
    · simp [colPos, hc]
    · have hs : s ∈ cs := by
        rcases List.mem_cons.mp h with h' | h'
        · exact absurd h'.symm hc
        · exact h'
      simp [colPos, hc, ih hs]

theorem colPos_ne_of_ne (C : List String) (s t : String) (hs : s ∈ C)
    (hst : s ≠ t) : colPos C s ≠ colPos C t := by
  induction C with
  | nil => simp at hs
  | cons c cs ih =>
    by_cases hcs : c = s
    · have hct : ¬c = t := fun h => hst (hcs ▸ h)
      simp [colPos, hcs, hct, hst]
    · have hs' : s ∈ cs := by
        rcases List.mem_cons.mp hs with h' | h'
        · exact absurd h'.symm hcs
        · exact h'
      by_cases hct : c = t
      · have hts : ¬t = s := fun h => hst h.symm
        simp [colPos, hcs, hct, hts]
      · simp only [colPos, hcs, hct, if_false]
        exact fun h => ih hs' (Nat.succ_injective h)

theorem rowGet_annotateRow_preserve (v : ModelVariant) (C : List String)
    (r : List PF) (c : String) (hcC : c ∈ C) (hcp : c ≠ "power_indicator")
    (hval : rowGet C r c ≠ PF.nan) :
    rowGet (annCols C) (annotateRow v C r) c = rowGet C r c := by
  have hlt : colPos C c < r.length := by
    by_contra hge
    refine hval ?_
    unfold rowGet
    exact List.getD_eq_default _ _ (Nat.le_of_not_lt hge)
  unfold annCols annotateRow
  by_cases h : "power_indicator" ∈ C
  · simp only [h, if_true]
    have hne : colPos C "power_indicator" ≠ colPos C c :=
      colPos_ne_of_ne C "power_indicator" c h (fun hcontra => hcp hcontra.symm)
    simp only [rowGet, List.getD_eq_getElem?_getD]
    rw [List.getElem?_set_ne hne]
  · simp only [h, if_false, rowGet, colPos_append C ["power_indicator"] c hcC]
    exact List.getD_append _ _ _ _ hlt

theorem PF.ne_nan_of_eqFalse {w : PF} (h : PF.eqFalse w = true) : w ≠ PF.nan := by
  cases w with
  | num a => simp
  | nan => simp [PF.eqFalse] at h

theorem PF.eqTrue_eq_false_of_eqFalse {w : PF} (h : PF.eqFalse w = true) :
    PF.eqTrue w = false := by
  cases w with
  | num a =>
    have ha : a = 0 := by simpa [PF.eqFalse] using h
    subst ha
    simp only [PF.eqTrue, beq_eq_false_iff_ne, ne_eq]
    norm_num
  | nan => rfl

theorem movingSubset_combined_rows (v : ModelVariant) (t : Df) (ts : List Df) :
    (movingSubset (combinedWithPower v t ts)).rows
      = ((t.rows ++ ts.flatMap Df.rows).map (annotateRow v t.cols)).filter
          (fun r => PF.eqTrue (rowGet (annCols t.cols) r "is_moving")) := by
  rw [combinedWithPower_eq]
  unfold movingSubset Df.filterRows
  dsimp only
  exact filterRows_map_snd _ _
    (fun r => (rowGet (annCols t.cols) r "is_moving").eqTrue) (by simp)

theorem stationarySubset_combined_rows (v : ModelVariant) (t : Df) (ts : List Df) :
    (stationarySubset (combinedWithPower v t ts)).rows
      = ((t.rows ++ ts.flatMap Df.rows).map (annotateRow v t.cols)).filter
          (fun r => PF.eqFalse (rowGet (annCols t.cols) r "is_moving")) := by
  rw [combinedWithPower_eq]
  unfold stationarySubset Df.filterRows
  dsimp only
  exact filterRows_map_snd _ _
    (fun r => (rowGet (annCols t.cols) r "is_moving").eqFalse) (by simp)

theorem combinedWithPower_cols (v : ModelVariant) (t : Df) (ts : List Df) :
    (combinedWithPower v t ts).cols = annCols t.cols := by
  rw [combinedWithPower_eq]

theorem train_cons_eq (v : ModelVariant) (f : LstsqFn) (t0 : Df) (ts : List Df) :
    (train v f (t0 :: ts)).1
      = Except.ok
          { beta := some (f
              (designMatrix v (movingSubset (trainingCombined v (t0 :: ts))))
              ((movingSubset (trainingCombined v (t0 :: ts))).getCol
                "power_indicator")),
            defaultUsage := some (PF.seriesMean
              ((stationarySubset (trainingCombined v (t0 :: ts))).getCol
                "power_indicator")) } := rfl

/-- C6: appending to the training set a record set all of whose
feature-derived rows are stationary (`is_moving == False` as read in the
combined frame) leaves the least-squares input — hence the coefficient
vector, for every least-squares routine — unchanged, while the stationary
baseline becomes the mean of the stationary power-indicator column enlarged
by one value per appended row. -/
theorem C6_phase_split_independence (v : ModelVariant) (f : LstsqFn)
    (t0 : Df) (ts : List Df) (dfE : Df)
    (him : "is_moving" ∈ (v.specModelCalc t0).2.cols)
    (hE : ∀ r ∈ (v.specModelCalc dfE).2.rows,
        PF.eqFalse (rowGet (v.specModelCalc t0).2.cols r "is_moving") = true) :
    ∃ (m m' : PModel) (extra : List PF),
      (train v f (t0 :: ts)).1 = Except.ok m ∧
        (train v f ((t0 :: ts) ++ [dfE])).1 = Except.ok m' ∧
        m'.beta = m.beta ∧
        extra.length = (v.specModelCalc dfE).2.rows.length ∧
        m'.defaultUsage = some (PF.seriesMean
          (((stationarySubset (trainingCombined v (t0 :: ts))).getCol
              "power_indicator") ++ extra)) := by
  have hTC1 : trainingCombined v (t0 :: ts)
      = combinedWithPower v (v.specModelCalc t0).2
          (ts.map (fun d => (v.specModelCalc d).2)) := by
    unfold trainingCombined
    simp only [List.map_cons]
  have hTC2 : trainingCombined v (t0 :: (ts ++ [dfE]))
      = combinedWithPower v (v.specModelCalc t0).2
          (ts.map (fun d => (v.specModelCalc d).2) ++ [(v.specModelCalc dfE).2]) := by
    unfold trainingCombined
    simp only [List.map_cons, List.map_append, List.map_nil]
  have hpm : ∀ e ∈ (v.specModelCalc dfE).2.rows,
      PF.eqTrue (rowGet (annCols (v.specModelCalc t0).2.cols)
        (annotateRow v (v.specModelCalc t0).2.cols e) "is_moving") = false := by
    intro e he
    rw [rowGet_annotateRow_preserve v _ e "is_moving" him (by decide)
      (PF.ne_nan_of_eqFalse (hE e he))]
    exact PF.eqTrue_eq_false_of_eqFalse (hE e he)
  have hpf : ∀ e ∈ (v.specModelCalc dfE).2.rows,
      PF.eqFalse (rowGet (annCols (v.specModelCalc t0).2.cols)
        (annotateRow v (v.specModelCalc t0).2.cols e) "is_moving") = true := by
    intro e he
    rw [rowGet_annotateRow_preserve v _ e "is_moving" him (by decide)
      (PF.ne_nan_of_eqFalse (hE e he))]
    exact hE e he
  have hrows2 : (v.specModelCalc t0).2.rows
        ++ ((ts.map (fun d => (v.specModelCalc d).2)
              ++ [(v.specModelCalc dfE).2]).flatMap Df.rows)
      = ((v.specModelCalc t0).2.rows
          ++ (ts.map (fun d => (v.specModelCalc d).2)).flatMap Df.rows)
        ++ (v.specModelCalc dfE).2.rows := by
    simp [List.append_assoc]
  have hmrows : (movingSubset (trainingCombined v (t0 :: (ts ++ [dfE])))).rows
      = (movingSubset (trainingCombined v (t0 :: ts))).rows := by
    rw [hTC1, hTC2, movingSubset_combined_rows, movingSubset_combined_rows,
      hrows2, List.map_append, List.filter_append]
    have hnil : (((v.specModelCalc dfE).2.rows).map
        (annotateRow v (v.specModelCalc t0).2.cols)).filter
          (fun r => PF.eqTrue
            (rowGet (annCols (v.specModelCalc t0).2.cols) r "is_moving")) = [] := by
      apply List.filter_eq_nil_iff.mpr
      intro x hx
      obtain ⟨e, he, rfl⟩ := List.mem_map.mp hx
      simp [hpm e he]
    rw [hnil, List.append_nil]
  have hmcols : (movingSubset (trainingCombined v (t0 :: (ts ++ [dfE])))).cols
      = (movingSubset (trainingCombined v (t0 :: ts))).cols := by
    show (trainingCombined v (t0 :: (ts ++ [dfE]))).cols
        = (trainingCombined v (t0 :: ts)).cols
    rw [hTC1, hTC2, combinedWithPower_cols, combinedWithPower_cols]
  have hX : designMatrix v (movingSubset (trainingCombined v (t0 :: (ts ++ [dfE]))))
      = designMatrix v (movingSubset (trainingCombined v (t0 :: ts))) := by
    unfold designMatrix
    rw [hmrows, hmcols]
  have hy : (movingSubset (trainingCombined v (t0 :: (ts ++ [dfE])))).getCol
        "power_indicator"
      = (movingSubset (trainingCombined v (t0 :: ts))).getCol "power_indicator" := by
    unfold Df.getCol
    rw [hmrows, hmcols]
  have hsrows : (stationarySubset (trainingCombined v (t0 :: (ts ++ [dfE])))).rows
      = (stationarySubset (trainingCombined v (t0 :: ts))).rows
        ++ ((v.specModelCalc dfE).2.rows).map
            (annotateRow v (v.specModelCalc t0).2.cols) := by
    rw [hTC1, hTC2, stationarySubset_combined_rows, stationarySubset_combined_rows,
      hrows2, List.map_append, List.filter_append]
    have hall : (((v.specModelCalc dfE).2.rows).map
        (annotateRow v (v.specModelCalc t0).2.cols)).filter
          (fun r => PF.eqFalse
            (rowGet (annCols (v.specModelCalc t0).2.cols) r "is_moving"))
        = ((v.specModelCalc dfE).2.rows).map
            (annotateRow v (v.specModelCalc t0).2.cols) := by
      apply List.filter_eq_self.mpr
      intro x hx
      obtain ⟨e, he, rfl⟩ := List.mem_map.mp hx
      exact hpf e he
    rw [hall]
  have hscols : (stationarySubset (trainingCombined v (t0 :: (ts ++ [dfE])))).cols
      = (stationarySubset (trainingCombined v (t0 :: ts))).cols := by
    show (trainingCombined v (t0 :: (ts ++ [dfE]))).cols
        = (trainingCombined v (t0 :: ts)).cols
    rw [hTC1, hTC2, combinedWithPower_cols, combinedWithPower_cols]
  have hdu : (stationarySubset (trainingCombined v (t0 :: (ts ++ [dfE])))).getCol
        "power_indicator"
      = (stationarySubset (trainingCombined v (t0 :: ts))).getCol "power_indicator"
        ++ (((v.specModelCalc dfE).2.rows).map
              (annotateRow v (v.specModelCalc t0).2.cols)).map
            (fun r => rowGet
              (stationarySubset (trainingCombined v (t0 :: ts))).cols
              r "power_indicator") := by
    unfold Df.getCol
    rw [hsrows, hscols, List.map_append]
  refine ⟨_, _,
    (((v.specModelCalc dfE).2.rows).map
        (annotateRow v (v.specModelCalc t0).2.cols)).map
      (fun r => rowGet (stationarySubset (trainingCombined v (t0 :: ts))).cols
        r "power_indicator"),
    train_cons_eq v f t0 ts, train_cons_eq v f t0 (ts ++ [dfE]), ?_, ?_, ?_⟩
  · simp only [hX, hy]
  · simp
  · simp only [hdu]

/-- C6 witness: the baseline variant, the toy mixed frame as training set,
and the toy stationary frame appended. -/
theorem C6_phase_split_independence_witness :
    ("is_moving" ∈ (baseLineVariant.specModelCalc mixedDf).2.cols ∧
        ∀ r ∈ (baseLineVariant.specModelCalc extraStatDf).2.rows,
          PF.eqFalse (rowGet (baseLineVariant.specModelCalc mixedDf).2.cols
            r "is_moving") = true) ∧
      ∃ (m m' : PModel) (extra : List PF),
        (train baseLineVariant lstsqZeros1 (mixedDf :: [])).1 = Except.ok m ∧
          (train baseLineVariant lstsqZeros1 ((mixedDf :: []) ++ [extraStatDf])).1
              = Except.ok m' ∧
            m'.beta = m.beta ∧
            extra.length
                = (baseLineVariant.specModelCalc extraStatDf).2.rows.length ∧
            m'.defaultUsage = some (PF.seriesMean
              (((stationarySubset
                  (trainingCombined baseLineVariant (mixedDf :: []))).getCol
                  "power_indicator") ++ extra)) :=
  ⟨⟨by decide, by decide⟩,
   C6_phase_split_independence baseLineVariant lstsqZeros1 mixedDf [] extraStatDf
     (by decide) (by decide)⟩

theorem colPos_eq_length_of_not_mem (C : List String) (s : String) (h : s ∉ C) :
    colPos C s = C.length := by
  induction C with
  | nil => rfl
  | cons c cs ih =>
    have hcs : ¬c = s := fun hc => h (hc ▸ List.mem_cons_self c cs)
    have hs : s ∉ cs := fun hmem => h (List.mem_cons_of_mem c hmem)
    simp [colPos, hcs, ih hs]

theorem diffAux_length (p : PF) (l : List PF) :
    (PF.diffAux p l).length = l.length := by
  induction l generalizing p with
  | nil => rfl
  | cons x xs ih => simp [PF.diffAux, ih]

theorem diffList_length (l : List PF) : (PF.diffList l).length = l.length := by
  cases l with
  | nil => rfl
  | cons x xs => simp [PF.diffList, diffAux_length]

theorem Df.getCol_length (df : Df) (c : String) :
    (df.getCol c).length = df.rows.length := by
  simp [Df.getCol]

theorem setCol_idx (df : Df) (c : String) (vs : List PF) :
    (df.setCol c vs).idx = df.idx := by
  unfold Df.setCol
  split <;> rfl

theorem setCol_cols (df : Df) (c : String) (vs : List PF) :
    (df.setCol c vs).cols = if c ∈ df.cols then df.cols else df.cols ++ [c] := by
  unfold Df.setCol
  split <;> simp_all

theorem setCol_rows_length (df : Df) (c : String) (vs : List PF)
    (hlen : vs.length = df.rows.length) :
    (df.setCol c vs).rows.length = df.rows.length := by
  unfold Df.setCol
  split <;> simp [hlen]

theorem setCol_rows_of_not_mem (df : Df) (c : String) (vs : List PF)
    (h : c ∉ df.cols) :
    (df.setCol c vs).rows = List.zipWith (fun r x => r ++ [x]) df.rows vs := by
  unfold Df.setCol
  simp [h]

theorem mem_zipWith {α β γ : Type} {f : α → β → γ} {l : List α} {l' : List β}
    {c : γ} (h : c ∈ List.zipWith f l l') : ∃ a ∈ l, ∃ b ∈ l', c = f a b := by
  induction l generalizing l' with
  | nil => simp at h
  | cons a t ih =>
    cases l' with
    | nil => simp at h
    | cons b t' =>
      rcases List.mem_cons.mp h with h' | h'
      · exact ⟨a, List.mem_cons_self _ _, b, List.mem_cons_self _ _, h'⟩
      · obtain ⟨x, hx, y, hy, hxy⟩ := ih h'
        exact ⟨x, List.mem_cons_of_mem _ hx, y, List.mem_cons_of_mem _ hy, hxy⟩

theorem setCol_wf (df : Df) (c : String) (vs : List PF) (hwf : df.WF) :
    (df.setCol c vs).WF := by
  unfold Df.setCol Df.WF
  by_cases h : c ∈ df.cols
  · simp only [h, if_true]
    intro r' hr'
    obtain ⟨r, hr, x, _, rfl⟩ := mem_zipWith hr'
    simp [hwf r hr]
  · simp only [h, if_false]
    intro r' hr'
    obtain ⟨r, hr, x, _, rfl⟩ := mem_zipWith hr'
    simp [hwf r hr]

theorem map_zipWith_eq_right {α β γ : Type} (f : α → β → γ) (g : γ → β)
    (l : List α) (l' : List β) (hlen : l'.length = l.length)
    (H : ∀ a ∈ l, ∀ b ∈ l', g (f a b) = b) :
    (List.zipWith f l l').map g = l' := by
  induction l generalizing l' with
  | nil =>
    cases l' with
    | nil => rfl
    | cons b t => simp at hlen
  | cons a t ih =>
    cases l' with
    | nil => simp at hlen
    | cons b t' =>
      simp only [List.zipWith_cons_cons, List.map_cons]
      rw [H a (List.mem_cons_self _ _) b (List.mem_cons_self _ _),
        ih t' (by simpa using hlen)
          (fun a' ha' b' hb' =>
            H a' (List.mem_cons_of_mem _ ha') b' (List.mem_cons_of_mem _ hb'))]

theorem map_zipWith_eq_left {α β γ δ : Type} (f : α → β → γ) (g : γ → δ)
    (h : α → δ) (l : List α) (l' : List β) (hlen : l'.length = l.length)
    (H : ∀ a ∈ l, ∀ b ∈ l', g (f a b) = h a) :
    (List.zipWith f l l').map g = l.map h := by
  induction l generalizing l' with
  | nil => simp
  | cons a t ih =>
    cases l' with
    | nil => simp at hlen
    | cons b t' =>
      simp only [List.zipWith_cons_cons, List.map_cons]
      rw [H a (List.mem_cons_self _ _) b (List.mem_cons_self _ _),
        ih t' (by simpa using hlen)
          (fun a' ha' b' hb' =>
            H a' (List.mem_cons_of_mem _ ha') b' (List.mem_cons_of_mem _ hb'))]

theorem colPos_append_self (C : List String) (c : String) (h : c ∉ C) :
    colPos (C ++ [c]) c = C.length := by
  induction C with
  | nil => simp [colPos]
  | cons a t ih =>
    have ha : ¬a = c := fun hc => h (hc ▸ List.mem_cons_self a t)
    have ht : c ∉ t := fun hmem => h (List.mem_cons_of_mem a hmem)
    simp [colPos, ha, ih ht]

theorem rowGet_append_col_self (cols : List String) (c : String) (r : List PF)
    (x : PF) (hwf : r.length = cols.length) (hc : c ∉ cols) :
    rowGet (cols ++ [c]) (r ++ [x]) c = x := by
  unfold rowGet
  rw [colPos_append_self cols c hc, List.getD_append_right _ _ _ _ (by rw [hwf]),
    hwf, Nat.sub_self]
  rfl

theorem rowGet_append_col (cols : List String) (c c' : String) (r : List PF)
    (x : PF) (hwf : r.length = cols.length) (hc : c ∉ cols) (hne : c' ≠ c) :
    rowGet (cols ++ [c]) (r ++ [x]) c' = rowGet cols r c' := by
  unfold rowGet
  by_cases h' : c' ∈ cols
  · rw [colPos_append cols [c] c' h']
    exact List.getD_append r [x] PF.nan _
      (by rw [hwf]; exact colPos_lt_length _ _ h')
  · have h1 : c' ∉ cols ++ [c] := by
      intro hmem
      rcases List.mem_append.mp hmem with hmem' | hmem'
      · exact h' hmem'
      · exact hne (List.mem_singleton.mp hmem')
    rw [colPos_eq_length_of_not_mem _ _ h1, colPos_eq_length_of_not_mem _ _ h',
      List.getD_eq_default, List.getD_eq_default]
    · rw [hwf]
    · simp [hwf]

theorem set_getD_self (l : List PF) (i : ℕ) (hi : i < l.length) :
    l.set i (l.getD i PF.nan) = l := by
  induction l generalizing i with
  | nil => simp at hi
  | cons x xs ih =>
    cases i with
    | zero => simp
    | succ n =>
      simp only [List.getD_cons_succ, List.set_cons_succ]
      rw [ih n (by simpa using hi)]

theorem getCol_setCol_same (df : Df) (c : String) (vs : List PF)
    (hwf : df.WF) (hlen : vs.length = df.rows.length) :
    (df.setCol c vs).getCol c = vs := by
  unfold Df.setCol
  by_cases h : c ∈ df.cols
  · simp only [h, if_true]
    unfold Df.getCol
    dsimp only
    apply map_zipWith_eq_right _ _ _ _ hlen
    intro r hr x _
    unfold rowGet
    rw [List.getD_eq_getElem?_getD, List.getElem?_set_eq_of_lt]
    · rfl
    · rw [hwf r hr]
      exact colPos_lt_length _ _ h
  · simp only [h, if_false]
    unfold Df.getCol
    dsimp only
    apply map_zipWith_eq_right _ _ _ _ hlen
    intro r hr x _
    exact rowGet_append_col_self df.cols c r x (hwf r hr) h

theorem getCol_setCol_ne (df : Df) (c : String) (vs : List PF) (c' : String)
    (hwf : df.WF) (hlen : vs.length = df.rows.length) (hne : c' ≠ c) :
    (df.setCol c vs).getCol c' = df.getCol c' := by
  unfold Df.setCol
  by_cases h : c ∈ df.cols
  · simp only [h, if_true]
    unfold Df.getCol
    dsimp only
    apply map_zipWith_eq_left _ _ _ _ _ hlen
    intro r hr x _
    have hpos : colPos df.cols c ≠ colPos df.cols c' := by
      by_cases hc' : c' ∈ df.cols
      · exact colPos_ne_of_ne df.cols c c' h (fun he => hne he.symm)
      · rw [colPos_eq_length_of_not_mem df.cols c' hc']
        exact Nat.ne_of_lt (colPos_lt_length _ _ h)
    unfold rowGet
    rw [List.getD_eq_getElem?_getD, List.getD_eq_getElem?_getD,
      List.getElem?_set_ne hpos]
  · simp only [h, if_false]
    unfold Df.getCol
    dsimp only
    apply map_zipWith_eq_left _ _ _ _ _ hlen
    intro r hr x _
    exact rowGet_append_col df.cols c c' r x (hwf r hr) h hne

theorem setCol_self_of_getCol (df : Df) (c : String) (h : c ∈ df.cols)
    (hwf : df.WF) :
    df.setCol c (df.getCol c) = df := by
  unfold Df.setCol
  simp only [h, if_true]
  have hrows : List.zipWith (fun r x => r.set (colPos df.cols c) x) df.rows
      (df.getCol c) = df.rows := by
    unfold Df.getCol
    rw [zipWith_self_map]
    have : ∀ r ∈ df.rows,
        r.set (colPos df.cols c) (rowGet df.cols r c) = r := by
      intro r hr
      unfold rowGet
      exact set_getD_self r _ (by rw [hwf r hr]; exact colPos_lt_length _ _ h)
    calc df.rows.map (fun r => r.set (colPos df.cols c) (rowGet df.cols r c))
        = df.rows.map id := List.map_congr_left this
      _ = df.rows := List.map_id _
  rw [hrows]

theorem mem_setCol_self (d : Df) (c : String) (vs : List PF) :
    c ∈ (d.setCol c vs).cols := by
  rw [setCol_cols]
  split
  · assumption
  · simp

theorem mem_setCol_of_mem (d : Df) (c' : String) (vs : List PF) (c : String)
    (h : c ∈ d.cols) : c ∈ (d.setCol c' vs).cols := by
  rw [setCol_cols]
  split
  · exact h
  · exact List.mem_append_left _ h

theorem speedVals_length (ext : FinalExt) (d : Df) :
    (speedVals ext d).length = d.rows.length := by
  simp [speedVals, Df.getCol]

theorem accVals_length (ext : FinalExt) (dt : ℚ) (d : Df) :
    (accVals ext dt d).length = d.rows.length := by
  simp [accVals, diffList_length, Df.getCol]

theorem zaccVals_length (dt : ℚ) (d : Df) :
    (zaccVals dt d).length = d.rows.length := by
  simp [zaccVals, diffList_length, Df.getCol]

theorem fzVals_length (d : Df) : (fzVals d).length = d.rows.length := by
  simp [fzVals, Df.getCol]

theorem fxyVals_length (d : Df) : (fxyVals d).length = d.rows.length := by
  simp [fxyVals, Df.getCol]

theorem vxyFactorVals_length (ext : FinalExt) (d : Df) :
    (vxyFactorVals ext d).length = d.rows.length := by
  simp [vxyFactorVals, Df.getCol]

theorem vzFactorVals_length (ext : FinalExt) (d : Df) :
    (vzFactorVals ext d).length = d.rows.length := by
  simp [vzFactorVals, Df.getCol]

/-- Running `FinalModel.spec_model_calc` a second time, on the caller-visible
frame left behind by a first run, recomputes every derived column to the
value it already holds: the mutation reaches a fixed point after one call,
and the returned pair is unchanged. -/
theorem finalSpecModelCalc_idem (ext : FinalExt) (dt : ℚ) (df : Df)
    (hwf : df.WF) :
    finalSpecModelCalc ext dt ((finalSpecModelCalc ext dt df).1)
      = finalSpecModelCalc ext dt df := by
  obtain ⟨d1, hd1⟩ : ∃ x, df.setCol "xy_air_speed" (speedVals ext df) = x :=
    ⟨_, rfl⟩
  obtain ⟨d2, hd2⟩ : ∃ x, d1.setCol "xy_air_acceleration" (accVals ext dt d1) = x :=
    ⟨_, rfl⟩
  obtain ⟨d3, hd3⟩ : ∃ x, d2.setCol "z_acceleration" (zaccVals dt d2) = x :=
    ⟨_, rfl⟩
  obtain ⟨d4, hd4⟩ : ∃ x, d3.setCol "force_z" (fzVals d3) = x := ⟨_, rfl⟩
  obtain ⟨d5, hd5⟩ : ∃ x, d4.setCol "force_xy" (fxyVals d4) = x := ⟨_, rfl⟩
  obtain ⟨d6, hd6⟩ : ∃ x, d5.setCol "velocity_xy_factor" (vxyFactorVals ext d5) = x :=
    ⟨_, rfl⟩
  obtain ⟨d7, hd7⟩ : ∃ x, d6.setCol "velocity_z_factor" (vzFactorVals ext d6) = x :=
    ⟨_, rfl⟩
  have w1 : d1.WF := hd1 ▸ setCol_wf _ _ _ hwf
  have w2 : d2.WF := hd2 ▸ setCol_wf _ _ _ w1
  have w3 : d3.WF := hd3 ▸ setCol_wf _ _ _ w2
  have w4 : d4.WF := hd4 ▸ setCol_wf _ _ _ w3
  have w5 : d5.WF := hd5 ▸ setCol_wf _ _ _ w4
  have w6 : d6.WF := hd6 ▸ setCol_wf _ _ _ w5
  have w7 : d7.WF := hd7 ▸ setCol_wf _ _ _ w6
  have l1 : (speedVals ext df).length = df.rows.length := speedVals_length _ _
  have l2 : (accVals ext dt d1).length = d1.rows.length := accVals_length _ _ _
  have l3 : (zaccVals dt d2).length = d2.rows.length := zaccVals_length _ _
  have l4 : (fzVals d3).length = d3.rows.length := fzVals_length _
  have l5 : (fxyVals d4).length = d4.rows.length := fxyVals_length _
  have l6 : (vxyFactorVals ext d5).length = d5.rows.length := vxyFactorVals_length _ _
  have l7 : (vzFactorVals ext d6).length = d6.rows.length := vzFactorVals_length _ _
  have s1 : ∀ c', c' ≠ "xy_air_speed" → d1.getCol c' = df.getCol c' := by
    intro c' h
    rw [← hd1]
    exact getCol_setCol_ne _ _ _ _ hwf l1 h
  have s2 : ∀ c', c' ≠ "xy_air_acceleration" → d2.getCol c' = d1.getCol c' := by
    intro c' h
    rw [← hd2]
    exact getCol_setCol_ne _ _ _ _ w1 l2 h
  have s3 : ∀ c', c' ≠ "z_acceleration" → d3.getCol c' = d2.getCol c' := by
    intro c' h
    rw [← hd3]
    exact getCol_setCol_ne _ _ _ _ w2 l3 h
  have s4 : ∀ c', c' ≠ "force_z" → d4.getCol c' = d3.getCol c' := by
    intro c' h
    rw [← hd4]
    exact getCol_setCol_ne _ _ _ _ w3 l4 h
  have s5 : ∀ c', c' ≠ "force_xy" → d5.getCol c' = d4.getCol c' := by
    intro c' h
    rw [← hd5]
    exact getCol_setCol_ne _ _ _ _ w4 l5 h
  have s6 : ∀ c', c' ≠ "velocity_xy_factor" → d6.getCol c' = d5.getCol c' := by
    intro c' h
    rw [← hd6]
    exact getCol_setCol_ne _ _ _ _ w5 l6 h
  have s7 : ∀ c', c' ≠ "velocity_z_factor" → d7.getCol c' = d6.getCol c' := by
    intro c' h
    rw [← hd7]
    exact getCol_setCol_ne _ _ _ _ w6 l7 h
  have raw7 : ∀ c', c' ∉ derivedNames → d7.getCol c' = df.getCol c' := by
    intro c' h
    simp only [derivedNames, List.mem_cons, List.mem_singleton, not_or] at h
    obtain ⟨h1, h2, h3, h4, h5, h6, h7, -⟩ := h
    rw [s7 c' h7, s6 c' h6, s5 c' h5, s4 c' h4, s3 c' h3, s2 c' h2, s1 c' h1]
  have hacc1 : accVals ext dt d1 = accVals ext dt df := by
    unfold accVals
    rw [s1 "vx_anemometer" (by decide), s1 "vy_anemometer" (by decide)]
  have hz2 : zaccVals dt d2 = zaccVals dt df := by
    unfold zaccVals
    rw [s2 "vz_imu" (by decide), s1 "vz_imu" (by decide)]
  have hc1 : d7.getCol "xy_air_speed" = speedVals ext df := by
    rw [s7 _ (by decide), s6 _ (by decide), s5 _ (by decide), s4 _ (by decide),
      s3 _ (by decide), s2 _ (by decide), ← hd1]
    exact getCol_setCol_same _ _ _ hwf l1
  have hc2 : d7.getCol "xy_air_acceleration" = accVals ext dt df := by
    rw [s7 _ (by decide), s6 _ (by decide), s5 _ (by decide), s4 _ (by decide),
      s3 _ (by decide), ← hd2, getCol_setCol_same _ _ _ w1 l2, hacc1]
  have hc3 : d7.getCol "z_acceleration" = zaccVals dt df := by
    rw [s7 _ (by decide), s6 _ (by decide), s5 _ (by decide), s4 _ (by decide),
      ← hd3, getCol_setCol_same _ _ _ w2 l3, hz2]
  have hc4 : d7.getCol "force_z"
      = List.zipWith PF.mul (zaccVals dt df) (df.getCol "total_mass") := by
    rw [s7 _ (by decide), s6 _ (by decide), s5 _ (by decide), ← hd4,
      getCol_setCol_same _ _ _ w3 l4]
    unfold fzVals
    rw [show d3.getCol "z_acceleration" = zaccVals dt df by
        rw [← hd3, getCol_setCol_same _ _ _ w2 l3, hz2],
      s3 "total_mass" (by decide), s2 "total_mass" (by decide),
      s1 "total_mass" (by decide)]
  have hc5 : d7.getCol "force_xy"
      = List.zipWith PF.mul (accVals ext dt df) (df.getCol "total_mass") := by
    rw [s7 _ (by decide), s6 _ (by decide), ← hd5,
      getCol_setCol_same _ _ _ w4 l5]
    unfold fxyVals
    rw [s4 "xy_air_acceleration" (by decide), s3 "xy_air_acceleration" (by decide),
      show d2.getCol "xy_air_acceleration" = accVals ext dt df by
        rw [← hd2, getCol_setCol_same _ _ _ w1 l2, hacc1],
      s4 "total_mass" (by decide), s3 "total_mass" (by decide),
      s2 "total_mass" (by decide), s1 "total_mass" (by decide)]
  have hc6 : d7.getCol "velocity_xy_factor"
      = List.zipWith (fun s m => (s.mul s).mul (PF.lift1 ext.pow23 m))
          (speedVals ext df) (df.getCol "total_mass") := by
    rw [s7 _ (by decide), ← hd6, getCol_setCol_same _ _ _ w5 l6]
    unfold vxyFactorVals
    rw [s5 "xy_air_speed" (by decide), s4 "xy_air_speed" (by decide),
      s3 "xy_air_speed" (by decide), s2 "xy_air_speed" (by decide),
      show d1.getCol "xy_air_speed" = speedVals ext df by
        rw [← hd1]
        exact getCol_setCol_same _ _ _ hwf l1,
      s5 "total_mass" (by decide), s4 "total_mass" (by decide),
      s3 "total_mass" (by decide), s2 "total_mass" (by decide),
      s1 "total_mass" (by decide)]
  have hc7 : d7.getCol "velocity_z_factor"
      = List.zipWith (fun w m => (w.mul w).mul (PF.lift1 ext.pow23 m))
          (df.getCol "vz_imu") (df.getCol "total_mass") := by
    rw [← hd7, getCol_setCol_same _ _ _ w6 l7]
    unfold vzFactorVals
    rw [s6 "vz_imu" (by decide), s5 "vz_imu" (by decide), s4 "vz_imu" (by decide),
      s3 "vz_imu" (by decide), s2 "vz_imu" (by decide), s1 "vz_imu" (by decide),
      s6 "total_mass" (by decide), s5 "total_mass" (by decide),
      s4 "total_mass" (by decide), s3 "total_mass" (by decide),
      s2 "total_mass" (by decide), s1 "total_mass" (by decide)]
  have m1 : "xy_air_speed" ∈ d7.cols := by
    rw [← hd7]
    apply mem_setCol_of_mem
    rw [← hd6]
    apply mem_setCol_of_mem
    rw [← hd5]
    apply mem_setCol_of_mem
    rw [← hd4]
    apply mem_setCol_of_mem
    rw [← hd3]
    apply mem_setCol_of_mem
    rw [← hd2]
    apply mem_setCol_of_mem
    rw [← hd1]
    exact mem_setCol_self _ _ _
  have m2 : "xy_air_acceleration" ∈ d7.cols := by
    rw [← hd7]
    apply mem_setCol_of_mem
    rw [← hd6]
    apply mem_setCol_of_mem
    rw [← hd5]
    apply mem_setCol_of_mem
    rw [← hd4]
    apply mem_setCol_of_mem
    rw [← hd3]
    apply mem_setCol_of_mem
    rw [← hd2]
    exact mem_setCol_self _ _ _
  have m3 : "z_acceleration" ∈ d7.cols := by
    rw [← hd7]
    apply mem_setCol_of_mem
    rw [← hd6]
    apply mem_setCol_of_mem
    rw [← hd5]
    apply mem_setCol_of_mem
    rw [← hd4]
    apply mem_setCol_of_mem
    rw [← hd3]
    exact mem_setCol_self _ _ _
  have m4 : "force_z" ∈ d7.cols := by
    rw [← hd7]
    apply mem_setCol_of_mem
    rw [← hd6]
    apply mem_setCol_of_mem
    rw [← hd5]
    apply mem_setCol_of_mem
    rw [← hd4]
    exact mem_setCol_self _ _ _
  have m5 : "force_xy" ∈ d7.cols := by
    rw [← hd7]
    apply mem_setCol_of_mem
    rw [← hd6]
    apply mem_setCol_of_mem
    rw [← hd5]
    exact mem_setCol_self _ _ _
  have m6 : "velocity_xy_factor" ∈ d7.cols := by
    rw [← hd7]
    apply mem_setCol_of_mem
    rw [← hd6]
    exact mem_setCol_self _ _ _
  have m7 : "velocity_z_factor" ∈ d7.cols := by
    rw [← hd7]
    exact mem_setCol_self _ _ _
  have hfix1 : d7.setCol "xy_air_speed" (speedVals ext d7) = d7 := by
    rw [show speedVals ext d7 = d7.getCol "xy_air_speed" by
        rw [show speedVals ext d7 = speedVals ext df by
            unfold speedVals
            rw [raw7 "vx_anemometer" (by decide), raw7 "vy_anemometer" (by decide)]]
        exact hc1.symm]
    exact setCol_self_of_getCol d7 _ m1 w7
  have hfix2 : d7.setCol "xy_air_acceleration" (accVals ext dt d7) = d7 := by
    rw [show accVals ext dt d7 = d7.getCol "xy_air_acceleration" by
        rw [show accVals ext dt d7 = accVals ext dt df by
            unfold accVals
            rw [raw7 "vx_anemometer" (by decide), raw7 "vy_anemometer" (by decide)]]
        exact hc2.symm]
    exact setCol_self_of_getCol d7 _ m2 w7
  have hfix3 : d7.setCol "z_acceleration" (zaccVals dt d7) = d7 := by
    rw [show zaccVals dt d7 = d7.getCol "z_acceleration" by
        rw [show zaccVals dt d7 = zaccVals dt df by
            unfold zaccVals
            rw [raw7 "vz_imu" (by decide)]]
        exact hc3.symm]
    exact setCol_self_of_getCol d7 _ m3 w7
  have hfix4 : d7.setCol "force_z" (fzVals d7) = d7 := by
    rw [show fzVals d7 = d7.getCol "force_z" by
        rw [show fzVals d7
            = List.zipWith PF.mul (zaccVals dt df) (df.getCol "total_mass") by
            unfold fzVals
            rw [raw7 "total_mass" (by decide), hc3]]
        exact hc4.symm]
    exact setCol_self_of_getCol d7 _ m4 w7
  have hfix5 : d7.setCol "force_xy" (fxyVals d7) = d7 := by
    rw [show fxyVals d7 = d7.getCol "force_xy" by
        rw [show fxyVals d7
            = List.zipWith PF.mul (accVals ext dt df) (df.getCol "total_mass") by
            unfold fxyVals
            rw [raw7 "total_mass" (by decide), hc2]]
        exact hc5.symm]
    exact setCol_self_of_getCol d7 _ m5 w7
  have hfix6 : d7.setCol "velocity_xy_factor" (vxyFactorVals ext d7) = d7 := by
    rw [show vxyFactorVals ext d7 = d7.getCol "velocity_xy_factor" by
        rw [show vxyFactorVals ext d7
            = List.zipWith (fun s m => (s.mul s).mul (PF.lift1 ext.pow23 m))
                (speedVals ext df) (df.getCol "total_mass") by
            unfold vxyFactorVals
            rw [raw7 "total_mass" (by decide), hc1]]
        exact hc6.symm]
    exact setCol_self_of_getCol d7 _ m6 w7
  have hfix7 : d7.setCol "velocity_z_factor" (vzFactorVals ext d7) = d7 := by
    rw [show vzFactorVals ext d7 = d7.getCol "velocity_z_factor" by
        rw [show vzFactorVals ext d7
            = List.zipWith (fun w m => (w.mul w).mul (PF.lift1 ext.pow23 m))
                (df.getCol "vz_imu") (df.getCol "total_mass") by
            unfold vzFactorVals
            rw [raw7 "total_mass" (by decide), raw7 "vz_imu" (by decide)]]
        exact hc7.symm]
    exact setCol_self_of_getCol d7 _ m7 w7
  have hfst : (finalSpecModelCalc ext dt df).1 = d7 := by
    unfold finalSpecModelCalc
    dsimp only
    rw [hd1, hd2, hd3, hd4, hd5, hd6, hd7]
  rw [hfst]
  have lhs : finalSpecModelCalc ext dt d7
      = (d7,
         { cols := ((d7.dropna).resetIndex).cols,
           idx := (((d7.dropna).resetIndex).idx ++ [-1]).map (fun i => i + 1),
           rows := ((d7.dropna).resetIndex).rows
             ++ [List.replicate ((d7.dropna).resetIndex).cols.length (PF.num 0)] }) := by
    unfold finalSpecModelCalc
    dsimp only
    rw [hfix1, hfix2, hfix3, hfix4, hfix5, hfix6, hfix7]
  have rhs : finalSpecModelCalc ext dt df
      = (d7,
         { cols := ((d7.dropna).resetIndex).cols,
           idx := (((d7.dropna).resetIndex).idx ++ [-1]).map (fun i => i + 1),
           rows := ((d7.dropna).resetIndex).rows
             ++ [List.replicate ((d7.dropna).resetIndex).cols.length (PF.num 0)] }) := by
    unfold finalSpecModelCalc
    dsimp only
    rw [hd1, hd2, hd3, hd4, hd5, hd6, hd7]
  rw [lhs, rhs]

/-- The caller-visible frame after `FinalModel.spec_model_calc` keeps every
column other than the seven derived ones unchanged. -/
theorem finalSpecModelCalc_visible_raw (ext : FinalExt) (dt : ℚ) (df : Df)
    (hwf : df.WF) (c : String) (hc : c ∉ derivedNames) :
    ((finalSpecModelCalc ext dt df).1).getCol c = df.getCol c := by
  obtain ⟨d1, hd1⟩ : ∃ x, df.setCol "xy_air_speed" (speedVals ext df) = x :=
    ⟨_, rfl⟩
  obtain ⟨d2, hd2⟩ : ∃ x, d1.setCol "xy_air_acceleration" (accVals ext dt d1) = x :=
    ⟨_, rfl⟩
  obtain ⟨d3, hd3⟩ : ∃ x, d2.setCol "z_acceleration" (zaccVals dt d2) = x :=
    ⟨_, rfl⟩
  obtain ⟨d4, hd4⟩ : ∃ x, d3.setCol "force_z" (fzVals d3) = x := ⟨_, rfl⟩
  obtain ⟨d5, hd5⟩ : ∃ x, d4.setCol "force_xy" (fxyVals d4) = x := ⟨_, rfl⟩
  obtain ⟨d6, hd6⟩ : ∃ x, d5.setCol "velocity_xy_factor" (vxyFactorVals ext d5) = x :=
    ⟨_, rfl⟩
  obtain ⟨d7, hd7⟩ : ∃ x, d6.setCol "velocity_z_factor" (vzFactorVals ext d6) = x :=
    ⟨_, rfl⟩
  have w1 : d1.WF := hd1 ▸ setCol_wf _ _ _ hwf
  have w2 : d2.WF := hd2 ▸ setCol_wf _ _ _ w1
  have w3 : d3.WF := hd3 ▸ setCol_wf _ _ _ w2
  have w4 : d4.WF := hd4 ▸ setCol_wf _ _ _ w3
  have w5 : d5.WF := hd5 ▸ setCol_wf _ _ _ w4
  have w6 : d6.WF := hd6 ▸ setCol_wf _ _ _ w5
  have hfst : (finalSpecModelCalc ext dt df).1 = d7 := by
    unfold finalSpecModelCalc
    dsimp only
    rw [hd1, hd2, hd3, hd4, hd5, hd6, hd7]
  rw [hfst]
  simp only [derivedNames, List.mem_cons, List.mem_singleton, not_or] at hc
  obtain ⟨h1, h2, h3, h4, h5, h6, h7, -⟩ := hc
  rw [show d7.getCol c = d6.getCol c by
      rw [← hd7]; exact getCol_setCol_ne _ _ _ _ w6 (vzFactorVals_length _ _) h7,
    show d6.getCol c = d5.getCol c by
      rw [← hd6]; exact getCol_setCol_ne _ _ _ _ w5 (vxyFactorVals_length _ _) h6,
    show d5.getCol c = d4.getCol c by
      rw [← hd5]; exact getCol_setCol_ne _ _ _ _ w4 (fxyVals_length _) h5,
    show d4.getCol c = d3.getCol c by
      rw [← hd4]; exact getCol_setCol_ne _ _ _ _ w3 (fzVals_length _) h4,
    show d3.getCol c = d2.getCol c by
      rw [← hd3]; exact getCol_setCol_ne _ _ _ _ w2 (zaccVals_length _ _) h3,
    show d2.getCol c = d1.getCol c by
      rw [← hd2]; exact getCol_setCol_ne _ _ _ _ w1 (accVals_length _ _ _) h2,
    show d1.getCol c = df.getCol c by
      rw [← hd1]; exact getCol_setCol_ne _ _ _ _ hwf (speedVals_length _ _) h1]

set_option maxHeartbeats 1600000 in
/-- C10 counterexample: on the final model the claim "the input data visible
to the caller is unchanged" is false — `spec_model_calc`'s in-place column
assignments leave the caller's frame with seven extra derived columns. -/
theorem C10_counterexample :
    ((forecast (finalVariant idExt 1) toyTrainedModel twoRowFlightDf).2).cols
      ≠ twoRowFlightDf.cols := by
  decide

/-- The caller-visible frame returned by `forecast` is the first component
of `spec_model_calc` — for the trained and the untrained model alike. -/
theorem forecast_snd (v : ModelVariant) (m : PModel) (df : Df) :
    (forecast v m df).2 = (v.specModelCalc df).1 := by
  unfold forecast
  cases m.beta <;> rfl

/-- Two frames with the same `spec_model_calc` image give the same
`forecast` result. -/
theorem forecast_congr_spec (v : ModelVariant) (m : PModel) (X Y : Df)
    (h : v.specModelCalc X = v.specModelCalc Y) :
    forecast v m X = forecast v m Y := by
  unfold forecast
  rw [h]

/-- C10 amended: `forecast` leaves the model state untouched and is
deterministic — calling it again on the frame the caller now holds returns
the identical result pair (the frame is a fixed point after one call) — but
it does mutate the caller's frame by writing the seven derived feature
columns; every other column's values are unchanged. -/
theorem C10_amended_forecast_effects (ext : FinalExt) (dt : ℚ) (m : PModel)
    (df : Df) (hwf : df.WF) :
    forecast (finalVariant ext dt) m ((forecast (finalVariant ext dt) m df).2)
        = forecast (finalVariant ext dt) m df ∧
      ∀ c, c ∉ derivedNames →
        ((forecast (finalVariant ext dt) m df).2).getCol c = df.getCol c := by
  have hvis : (forecast (finalVariant ext dt) m df).2
      = (finalSpecModelCalc ext dt df).1 :=
    forecast_snd (finalVariant ext dt) m df
  constructor
  · apply forecast_congr_spec
    show finalSpecModelCalc ext dt ((forecast (finalVariant ext dt) m df).2)
        = finalSpecModelCalc ext dt df
    rw [hvis]
    exact finalSpecModelCalc_idem ext dt df hwf
  · intro c hc
    rw [hvis]
    exact finalSpecModelCalc_visible_raw ext dt df hwf c hc

/-- C10 witness: the amended statement at the toy flight frame with the
stand-in external routines and the toy trained model. -/
theorem C10_amended_forecast_effects_witness :
    twoRowFlightDf.WF ∧
      (forecast (finalVariant idExt 1) toyTrainedModel
          ((forecast (finalVariant idExt 1) toyTrainedModel twoRowFlightDf).2)
          = forecast (finalVariant idExt 1) toyTrainedModel twoRowFlightDf ∧
        ∀ c, c ∉ derivedNames →
          ((forecast (finalVariant idExt 1) toyTrainedModel twoRowFlightDf).2).getCol c
            = twoRowFlightDf.getCol c) :=
  ⟨by decide,
   C10_amended_forecast_effects idExt 1 toyTrainedModel twoRowFlightDf (by decide)⟩

namespace PF

@[simp] theorem isNum_num (a : ℚ) : isNum (num a) = true := rfl
@[simp] theorem isNum_nan : isNum nan = false := rfl
@[simp] theorem lift1_num (f : ℚ → ℚ) (a : ℚ) : lift1 f (num a) = num (f a) := rfl
@[simp] theorem lift1_nan (f : ℚ → ℚ) : lift1 f nan = nan := rfl
@[simp] theorem divC_num (a c : ℚ) : (num a).divC c = num (a / c) := rfl
@[simp] theorem divC_nan (c : ℚ) : nan.divC c = nan := rfl
@[simp] theorem mul_nan_left (v : PF) : mul nan v = nan := by cases v <;> rfl
@[simp] theorem mul_nan_right (v : PF) : mul v nan = nan := by cases v <;> rfl
@[simp] theorem sub_nan_left (v : PF) : sub nan v = nan := by cases v <;> rfl
@[simp] theorem sub_nan_right (v : PF) : sub v nan = nan := by cases v <;> rfl

theorem isNum_mul {a b : PF} (ha : a.isNum = true) (hb : b.isNum = true) :
    (mul a b).isNum = true := by
  cases a <;> cases b <;> simp_all [mul]

theorem isNum_add {a b : PF} (ha : a.isNum = true) (hb : b.isNum = true) :
    (add a b).isNum = true := by
  cases a <;> cases b <;> simp_all [add]

theorem isNum_sub {a b : PF} (ha : a.isNum = true) (hb : b.isNum = true) :
    (sub a b).isNum = true := by
  cases a <;> cases b <;> simp_all [sub]

theorem isNum_divC {a : PF} (c : ℚ) (ha : a.isNum = true) :
    (a.divC c).isNum = true := by
  cases a <;> simp_all [divC]

theorem isNum_lift1 (f : ℚ → ℚ) {a : PF} (ha : a.isNum = true) :
    (lift1 f a).isNum = true := by
  cases a <;> simp_all [lift1]

theorem diffAux_isNum {p : PF} {l : List PF} (hp : p.isNum = true)
    (hl : ∀ x ∈ l, x.isNum = true) :
    ∀ x ∈ diffAux p l, x.isNum = true := by
  induction l generalizing p with
  | nil => intro x hx; simp [diffAux] at hx
  | cons y ys ih =>
    intro x hx
    rcases List.mem_cons.mp hx with h | h
    · subst h
      exact isNum_sub (hl y (List.mem_cons_self _ _)) hp
    · exact ih (hl y (List.mem_cons_self _ _))
        (fun z hz => hl z (List.mem_cons_of_mem _ hz)) x h

end PF

theorem rowGet_isNum (cols : List String) (r : List PF) (c : String)
    (hlt : colPos cols c < r.length) (hall : ∀ x ∈ r, x.isNum = true) :
    (rowGet cols r c).isNum = true := by
  unfold rowGet
  rw [List.getD_eq_getElem _ _ hlt]
  exact hall _ (List.getElem_mem hlt)

theorem getCol_isNum (df : Df) (c : String) (hwf : df.WF)
    (hnum : ∀ r ∈ df.rows, ∀ x ∈ r, x.isNum = true) (hcm : c ∈ df.cols) :
    ∀ x ∈ df.getCol c, x.isNum = true := by
  intro x hx
  obtain ⟨r, hr, rfl⟩ := List.mem_map.mp hx
  exact rowGet_isNum df.cols r c
    (by rw [hwf r hr]; exact colPos_lt_length _ _ hcm) (hnum r hr)

/-- C8 amended: the reference feature derivation drops exactly the rows whose
finite-difference inputs are undefined (the first row, for NaN-free input),
keeps the remaining rows in order (their original columns unchanged, the
seven derived columns appended), and then appends the single synthetic
all-zero row at the TAIL of the set, relabelling so the surviving rows get
index labels `1..n-1` and the zero row gets label `0`; the zero row has
`is_moving == False` and so is counted in the stationary statistics. -/
theorem C8_amended_zero_row_at_tail (ext : FinalExt) (dt : ℚ) (df : Df)
    (hwf : df.WF) (hidx : df.idx.length = df.rows.length)
    (hnum : ∀ r ∈ df.rows, ∀ x ∈ r, x.isNum = true)
    (hfresh : ∀ c ∈ derivedNames, c ∉ df.cols)
    (hvx : "vx_anemometer" ∈ df.cols) (hvy : "vy_anemometer" ∈ df.cols)
    (hvz : "vz_imu" ∈ df.cols) (hmass : "total_mass" ∈ df.cols)
    (him : "is_moving" ∈ df.cols) (hne : df.rows ≠ []) :
    ((finalSpecModelCalc ext dt df).2).cols = df.cols ++ derivedNames ∧
      ((finalSpecModelCalc ext dt df).2).idx
        = (List.range (df.rows.length - 1)).map (fun i => Int.ofNat i + 1) ++ [0] ∧
      ((finalSpecModelCalc ext dt df).2).rows.length = df.rows.length ∧
      ((finalSpecModelCalc ext dt df).2).rows.getLast?
        = some (List.replicate (df.cols ++ derivedNames).length (PF.num 0)) ∧
      ((finalSpecModelCalc ext dt df).2).rows.dropLast.map
          (fun r => r.take df.cols.length) = df.rows.tail ∧
      PF.eqFalse (rowGet (df.cols ++ derivedNames)
        (List.replicate (df.cols ++ derivedNames).length (PF.num 0))
        "is_moving") = true := by
  obtain ⟨r0, rest, hR⟩ := List.exists_cons_of_ne_nil hne
  obtain ⟨d1, hd1⟩ : ∃ x, df.setCol "xy_air_speed" (speedVals ext df) = x :=
    ⟨_, rfl⟩
  obtain ⟨d2, hd2⟩ : ∃ x, d1.setCol "xy_air_acceleration" (accVals ext dt d1) = x :=
    ⟨_, rfl⟩
  obtain ⟨d3, hd3⟩ : ∃ x, d2.setCol "z_acceleration" (zaccVals dt d2) = x :=
    ⟨_, rfl⟩
  obtain ⟨d4, hd4⟩ : ∃ x, d3.setCol "force_z" (fzVals d3) = x := ⟨_, rfl⟩
  obtain ⟨d5, hd5⟩ : ∃ x, d4.setCol "force_xy" (fxyVals d4) = x := ⟨_, rfl⟩
  obtain ⟨d6, hd6⟩ : ∃ x, d5.setCol "velocity_xy_factor" (vxyFactorVals ext d5) = x :=
    ⟨_, rfl⟩
  obtain ⟨d7, hd7⟩ : ∃ x, d6.setCol "velocity_z_factor" (vzFactorVals ext d6) = x :=
    ⟨_, rfl⟩
  have w1 : d1.WF := hd1 ▸ setCol_wf _ _ _ hwf
  have w2 : d2.WF := hd2 ▸ setCol_wf _ _ _ w1
  have w3 : d3.WF := hd3 ▸ setCol_wf _ _ _ w2
  have w4 : d4.WF := hd4 ▸ setCol_wf _ _ _ w3
  have w5 : d5.WF := hd5 ▸ setCol_wf _ _ _ w4
  have w6 : d6.WF := hd6 ▸ setCol_wf _ _ _ w5
  have l1 : (speedVals ext df).length = df.rows.length := speedVals_length _ _
  have l2 : (accVals ext dt d1).length = d1.rows.length := accVals_length _ _ _
  have l3 : (zaccVals dt d2).length = d2.rows.length := zaccVals_length _ _
  have l4 : (fzVals d3).length = d3.rows.length := fzVals_length _
  have l5 : (fxyVals d4).length = d4.rows.length := fxyVals_length _
  have l6 : (vxyFactorVals ext d5).length = d5.rows.length := vxyFactorVals_length _ _
  have l7 : (vzFactorVals ext d6).length = d6.rows.length := vzFactorVals_length _ _
  have s1 : ∀ c', c' ≠ "xy_air_speed" → d1.getCol c' = df.getCol c' := by
    intro c' h
    rw [← hd1]
    exact getCol_setCol_ne _ _ _ _ hwf l1 h
  have s2 : ∀ c', c' ≠ "xy_air_acceleration" → d2.getCol c' = d1.getCol c' := by
    intro c' h
    rw [← hd2]
    exact getCol_setCol_ne _ _ _ _ w1 l2 h
  have s3 : ∀ c', c' ≠ "z_acceleration" → d3.getCol c' = d2.getCol c' := by
    intro c' h
    rw [← hd3]
    exact getCol_setCol_ne _ _ _ _ w2 l3 h
  have s4 : ∀ c', c' ≠ "force_z" → d4.getCol c' = d3.getCol c' := by
    intro c' h
    rw [← hd4]
    exact getCol_setCol_ne _ _ _ _ w3 l4 h
  have s5 : ∀ c', c' ≠ "force_xy" → d5.getCol c' = d4.getCol c' := by
    intro c' h
    rw [← hd5]
    exact getCol_setCol_ne _ _ _ _ w4 l5 h
  have s6 : ∀ c', c' ≠ "velocity_xy_factor" → d6.getCol c' = d5.getCol c' := by
    intro c' h
    rw [← hd6]
    exact getCol_setCol_ne _ _ _ _ w5 l6 h
  have masscol : ∀ x ∈ df.getCol "total_mass", x.isNum = true :=
    getCol_isNum df _ hwf hnum hmass
  have vxcol : ∀ x ∈ df.getCol "vx_anemometer", x.isNum = true :=
    getCol_isNum df _ hwf hnum hvx
  have vycol : ∀ x ∈ df.getCol "vy_anemometer", x.isNum = true :=
    getCol_isNum df _ hwf hnum hvy
  have vzcol : ∀ x ∈ df.getCol "vz_imu", x.isNum = true :=
    getCol_isNum df _ hwf hnum hvz
  have hr0mem : r0 ∈ df.rows := by
    rw [hR]
    exact List.mem_cons_self _ _
  have hr0num : ∀ x ∈ r0, x.isNum = true := hnum r0 hr0mem
  have hr0len : r0.length = df.cols.length := hwf r0 hr0mem
  have hrestmem : ∀ r ∈ rest, r ∈ df.rows := by
    intro r hr
    rw [hR]
    exact List.mem_cons_of_mem _ hr
  have g0 : ∀ c : String, c ∈ df.cols → (rowGet df.cols r0 c).isNum = true := by
    intro c hcm
    exact rowGet_isNum _ _ _ (by rw [hr0len]; exact colPos_lt_length _ _ hcm) hr0num
  have grest : ∀ c : String, c ∈ df.cols →
      ∀ x ∈ rest.map (fun r => rowGet df.cols r c), x.isNum = true := by
    intro c hcm x hx
    obtain ⟨r, hr, rfl⟩ := List.mem_map.mp hx
    exact rowGet_isNum _ _ _
      (by rw [hwf r (hrestmem r hr)]; exact colPos_lt_length _ _ hcm)
      (hnum r (hrestmem r hr))
  have hcvx : df.getCol "vx_anemometer"
      = rowGet df.cols r0 "vx_anemometer"
        :: rest.map (fun r => rowGet df.cols r "vx_anemometer") := by
    unfold Df.getCol
    rw [hR]
    rfl
  have hcvy : df.getCol "vy_anemometer"
      = rowGet df.cols r0 "vy_anemometer"
        :: rest.map (fun r => rowGet df.cols r "vy_anemometer") := by
    unfold Df.getCol
    rw [hR]
    rfl
  have hcvz : df.getCol "vz_imu"
      = rowGet df.cols r0 "vz_imu"
        :: rest.map (fun r => rowGet df.cols r "vz_imu") := by
    unfold Df.getCol
    rw [hR]
    rfl
  have hcm : df.getCol "total_mass"
      = rowGet df.cols r0 "total_mass"
        :: rest.map (fun r => rowGet df.cols r "total_mass") := by
    unfold Df.getCol
    rw [hR]
    rfl
  have hrestlen : df.rows.length = rest.length + 1 := by
    rw [hR]
    rfl
  obtain ⟨v1h, v1t, hv1, hv1tnum, hv1len⟩ :
      ∃ h t, speedVals ext df = h :: t ∧ (∀ x ∈ t, x.isNum = true) ∧
        t.length = rest.length := by
    refine ⟨_, _, by unfold speedVals; rw [hcvx, hcvy]; rfl, ?_, ?_⟩
    · intro x hx
      obtain ⟨a, ha, b, hb, rfl⟩ := mem_zipWith hx
      exact PF.isNum_lift1 _ (PF.isNum_add
        (PF.isNum_mul (grest _ hvx a ha) (grest _ hvx a ha))
        (PF.isNum_mul (grest _ hvy b hb) (grest _ hvy b hb)))
    · simp
  obtain ⟨v2t, hv2, hv2tnum, hv2len⟩ :
      ∃ t, accVals ext dt d1 = PF.nan :: t ∧ (∀ x ∈ t, x.isNum = true) ∧
        t.length = rest.length := by
    have hv2eq : accVals ext dt d1
        = List.zipWith (fun a b => PF.lift1 ext.sqrt ((a.mul a).add (b.mul b)))
            ((PF.diffList (df.getCol "vx_anemometer")).map (fun w => w.divC dt))
            ((PF.diffList (df.getCol "vy_anemometer")).map (fun w => w.divC dt)) := by
      unfold accVals
      rw [s1 _ (by decide), s1 _ (by decide)]
    refine ⟨_, by
      rw [hv2eq, hcvx, hcvy]
      simp only [PF.diffList, List.map_cons, PF.divC_nan, List.zipWith_cons_cons,
        PF.mul_nan_left, PF.add_nan_left, PF.lift1_nan]
      rfl, ?_, ?_⟩
    · intro x hx
      obtain ⟨a, ha, b, hb, rfl⟩ := mem_zipWith hx
      obtain ⟨a', ha', rfl⟩ := List.mem_map.mp ha
      obtain ⟨b', hb', rfl⟩ := List.mem_map.mp hb
      exact PF.isNum_lift1 _ (PF.isNum_add
        (PF.isNum_mul (PF.isNum_divC _ (PF.diffAux_isNum (g0 _ hvx) (grest _ hvx) _ ha'))
          (PF.isNum_divC _ (PF.diffAux_isNum (g0 _ hvx) (grest _ hvx) _ ha')))
        (PF.isNum_mul (PF.isNum_divC _ (PF.diffAux_isNum (g0 _ hvy) (grest _ hvy) _ hb'))
          (PF.isNum_divC _ (PF.diffAux_isNum (g0 _ hvy) (grest _ hvy) _ hb'))))
    · simp [diffAux_length]
  obtain ⟨v3t, hv3, hv3tnum, hv3len⟩ :
      ∃ t, zaccVals dt d2 = PF.nan :: t ∧ (∀ x ∈ t, x.isNum = true) ∧
        t.length = rest.length := by
    have heq : zaccVals dt d2
        = (PF.diffList (df.getCol "vz_imu")).map (fun w => w.divC dt) := by
      unfold zaccVals
      rw [s2 _ (by decide), s1 _ (by decide)]
    refine ⟨_, by
      rw [heq, hcvz]
      simp only [PF.diffList, List.map_cons, PF.divC_nan]
      rfl, ?_, ?_⟩
    · intro x hx
      obtain ⟨a, ha, rfl⟩ := List.mem_map.mp hx
      exact PF.isNum_divC _ (PF.diffAux_isNum (g0 _ hvz) (grest _ hvz) _ ha)
    · simp [diffAux_length]
  obtain ⟨v4t, hv4, hv4tnum, hv4len⟩ :
      ∃ t, fzVals d3 = PF.nan :: t ∧ (∀ x ∈ t, x.isNum = true) ∧
        t.length = rest.length := by
    have hz3 : d3.getCol "z_acceleration" = PF.nan :: v3t := by
      rw [← hd3, getCol_setCol_same _ _ _ w2 l3, hv3]
    have hm3 : d3.getCol "total_mass"
        = rowGet df.cols r0 "total_mass"
          :: rest.map (fun r => rowGet df.cols r "total_mass") := by
      rw [s3 _ (by decide), s2 _ (by decide), s1 _ (by decide), hcm]
    refine ⟨_, by
      unfold fzVals
      rw [hz3, hm3]
      simp only [List.zipWith_cons_cons, PF.mul_nan_left]
      rfl, ?_, ?_⟩
    · intro x hx
      obtain ⟨a, ha, b, hb, rfl⟩ := mem_zipWith hx
      exact PF.isNum_mul (hv3tnum a ha) (grest _ hmass b hb)
    · simp only [List.length_zipWith, List.length_map, hv3len]
      exact Nat.min_self _
  obtain ⟨v5t, hv5, hv5tnum, hv5len⟩ :
      ∃ t, fxyVals d4 = PF.nan :: t ∧ (∀ x ∈ t, x.isNum = true) ∧
        t.length = rest.length := by
    have ha4 : d4.getCol "xy_air_acceleration" = PF.nan :: v2t := by
      rw [s4 _ (by decide), s3 _ (by decide), ← hd2,
        getCol_setCol_same _ _ _ w1 l2, hv2]
    have hm4 : d4.getCol "total_mass"
        = rowGet df.cols r0 "total_mass"
          :: rest.map (fun r => rowGet df.cols r "total_mass") := by
      rw [s4 _ (by decide), s3 _ (by decide), s2 _ (by decide),
        s1 _ (by decide), hcm]
    refine ⟨_, by
      unfold fxyVals
      rw [ha4, hm4]
      simp only [List.zipWith_cons_cons, PF.mul_nan_left]
      rfl, ?_, ?_⟩
    · intro x hx
      obtain ⟨a, ha, b, hb, rfl⟩ := mem_zipWith hx
      exact PF.isNum_mul (hv2tnum a ha) (grest _ hmass b hb)
    · simp only [List.length_zipWith, List.length_map, hv2len]
      exact Nat.min_self _
  obtain ⟨v6h, v6t, hv6, hv6tnum, hv6len⟩ :
      ∃ h t, vxyFactorVals ext d5 = h :: t ∧ (∀ x ∈ t, x.isNum = true) ∧
        t.length = rest.length := by
    have hs5 : d5.getCol "xy_air_speed" = v1h :: v1t := by
      rw [s5 _ (by decide), s4 _ (by decide), s3 _ (by decide),
        s2 _ (by decide), ← hd1, getCol_setCol_same _ _ _ hwf l1, hv1]
    have hm5 : d5.getCol "total_mass"
        = rowGet df.cols r0 "total_mass"
          :: rest.map (fun r => rowGet df.cols r "total_mass") := by
      rw [s5 _ (by decide), s4 _ (by decide), s3 _ (by decide),
        s2 _ (by decide), s1 _ (by decide), hcm]
    refine ⟨_, _, by unfold vxyFactorVals; rw [hs5, hm5]; rfl, ?_, ?_⟩
    · intro x hx
      obtain ⟨a, ha, b, hb, rfl⟩ := mem_zipWith hx
      exact PF.isNum_mul (PF.isNum_mul (hv1tnum a ha) (hv1tnum a ha))
        (PF.isNum_lift1 _ (grest _ hmass b hb))
    · simp only [List.length_zipWith, List.length_map, hv1len]
      exact Nat.min_self _
  obtain ⟨v7h, v7t, hv7, hv7tnum, hv7len⟩ :
      ∃ h t, vzFactorVals ext d6 = h :: t ∧ (∀ x ∈ t, x.isNum = true) ∧
        t.length = rest.length := by
    have hz6 : d6.getCol "vz_imu"
        = rowGet df.cols r0 "vz_imu"
          :: rest.map (fun r => rowGet df.cols r "vz_imu") := by
      rw [s6 _ (by decide), s5 _ (by decide), s4 _ (by decide),
        s3 _ (by decide), s2 _ (by decide), s1 _ (by decide), hcvz]
    have hm6 : d6.getCol "total_mass"
        = rowGet df.cols r0 "total_mass"
          :: rest.map (fun r => rowGet df.cols r "total_mass") := by
      rw [s6 _ (by decide), s5 _ (by decide), s4 _ (by decide),
        s3 _ (by decide), s2 _ (by decide), s1 _ (by decide), hcm]
    refine ⟨_, _, by unfold vzFactorVals; rw [hz6, hm6]; rfl, ?_, ?_⟩
    · intro x hx
      obtain ⟨a, ha, b, hb, rfl⟩ := mem_zipWith hx
      exact PF.isNum_mul (PF.isNum_mul (grest _ hvz a ha) (grest _ hvz a ha))
        (PF.isNum_lift1 _ (grest _ hmass b hb))
    · simp only [List.length_zipWith, List.length_map, hv1len]
      exact Nat.min_self _
  have f1 : "xy_air_speed" ∉ df.cols := hfresh _ (by decide)
  have hcols1 : d1.cols = df.cols ++ ["xy_air_speed"] := by
    rw [← hd1, setCol_cols]
    simp [f1]
  have f2 : "xy_air_acceleration" ∉ d1.cols := by
    rw [hcols1]
    simp only [List.mem_append, List.mem_singleton]
    rintro (h | h)
    · exact hfresh _ (by decide) h
    · exact absurd h (by decide)
  have hcols2 : d2.cols = df.cols ++ ["xy_air_speed", "xy_air_acceleration"] := by
    rw [← hd2, setCol_cols, if_neg f2, hcols1]
    simp
  have f3 : "z_acceleration" ∉ d2.cols := by
    rw [hcols2]
    simp only [List.mem_append, List.mem_cons, List.mem_singleton]
    rintro (h | h | h)
    · exact hfresh _ (by decide) h
    · exact absurd h (by decide)
    · exact absurd h (by decide)
  have hcols3 : d3.cols
      = df.cols ++ ["xy_air_speed", "xy_air_acceleration", "z_acceleration"] := by
    rw [← hd3, setCol_cols, if_neg f3, hcols2]
    simp
  have f4 : "force_z" ∉ d3.cols := by
    rw [hcols3]
    simp only [List.mem_append, List.mem_cons, List.mem_singleton]
    rintro (h | h | h | h)
    · exact hfresh _ (by decide) h
    · exact absurd h (by decide)
    · exact absurd h (by decide)
    · exact absurd h (by decide)
  have hcols4 : d4.cols
      = df.cols ++ ["xy_air_speed", "xy_air_acceleration", "z_acceleration",
          "force_z"] := by
    rw [← hd4, setCol_cols, if_neg f4, hcols3]
    simp
  have f5 : "force_xy" ∉ d4.cols := by
    rw [hcols4]
    simp only [List.mem_append, List.mem_cons, List.mem_singleton]
    rintro (h | h | h | h | h)
    · exact hfresh _ (by decide) h
    · exact absurd h (by decide)
    · exact absurd h (by decide)
    · exact absurd h (by decide)
    · exact absurd h (by decide)
  have hcols5 : d5.cols
      = df.cols ++ ["xy_air_speed", "xy_air_acceleration", "z_acceleration",
          "force_z", "force_xy"] := by
    rw [← hd5, setCol_cols, if_neg f5, hcols4]
    simp
  have f6 : "velocity_xy_factor" ∉ d5.cols := by
    rw [hcols5]
    simp only [List.mem_append, List.mem_cons, List.mem_singleton]
    rintro (h | h | h | h | h | h)
    · exact hfresh _ (by decide) h
    · exact absurd h (by decide)
    · exact absurd h (by decide)
    · exact absurd h (by decide)
    · exact absurd h (by decide)
    · exact absurd h (by decide)
  have hcols6 : d6.cols
      = df.cols ++ ["xy_air_speed", "xy_air_acceleration", "z_acceleration",
          "force_z", "force_xy", "velocity_xy_factor"] := by
    rw [← hd6, setCol_cols, if_neg f6, hcols5]
    simp
  have f7 : "velocity_z_factor" ∉ d6.cols := by
    rw [hcols6]
    simp only [List.mem_append, List.mem_cons, List.mem_singleton]
    rintro (h | h | h | h | h | h | h)
    · exact hfresh _ (by decide) h
    · exact absurd h (by decide)
    · exact absurd h (by decide)
    · exact absurd h (by decide)
    · exact absurd h (by decide)
    · exact absurd h (by decide)
    · exact absurd h (by decide)
  have hcols7 : d7.cols = df.cols ++ derivedNames := by
    rw [← hd7, setCol_cols, if_neg f7, hcols6]
    simp [derivedNames]
  obtain ⟨C1, hC1⟩ :
      ∃ x, List.zipWith (fun (r : List PF) (y : PF) => r ++ [y]) rest v1t = x :=
    ⟨_, rfl⟩
  have hrows1 : d1.rows = (r0 ++ [v1h]) :: C1 := by
    rw [← hd1, setCol_rows_of_not_mem _ _ _ f1, hR, hv1,
      List.zipWith_cons_cons, hC1]
  obtain ⟨C2, hC2⟩ :
      ∃ x, List.zipWith (fun (r : List PF) (y : PF) => r ++ [y]) C1 v2t = x :=
    ⟨_, rfl⟩
  have hrows2 : d2.rows = ((r0 ++ [v1h]) ++ [PF.nan]) :: C2 := by
    rw [← hd2, setCol_rows_of_not_mem _ _ _ f2, hrows1, hv2,
      List.zipWith_cons_cons, hC2]
  obtain ⟨C3, hC3⟩ :
      ∃ x, List.zipWith (fun (r : List PF) (y : PF) => r ++ [y]) C2 v3t = x :=
    ⟨_, rfl⟩
  have hrows3 : d3.rows = (((r0 ++ [v1h]) ++ [PF.nan]) ++ [PF.nan]) :: C3 := by
    rw [← hd3, setCol_rows_of_not_mem _ _ _ f3, hrows2, hv3,
      List.zipWith_cons_cons, hC3]
  obtain ⟨C4, hC4⟩ :
      ∃ x, List.zipWith (fun (r : List PF) (y : PF) => r ++ [y]) C3 v4t = x :=
    ⟨_, rfl⟩
  have hrows4 : d4.rows
      = ((((r0 ++ [v1h]) ++ [PF.nan]) ++ [PF.nan]) ++ [PF.nan]) :: C4 := by
    rw [← hd4, setCol_rows_of_not_mem _ _ _ f4, hrows3, hv4,
      List.zipWith_cons_cons, hC4]
  obtain ⟨C5, hC5⟩ :
      ∃ x, List.zipWith (fun (r : List PF) (y : PF) => r ++ [y]) C4 v5t = x :=
    ⟨_, rfl⟩
  have hrows5 : d5.rows
      = (((((r0 ++ [v1h]) ++ [PF.nan]) ++ [PF.nan]) ++ [PF.nan]) ++ [PF.nan])
        :: C5 := by
    rw [← hd5, setCol_rows_of_not_mem _ _ _ f5, hrows4, hv5,
      List.zipWith_cons_cons, hC5]
  obtain ⟨C6, hC6⟩ :
      ∃ x, List.zipWith (fun (r : List PF) (y : PF) => r ++ [y]) C5 v6t = x :=
    ⟨_, rfl⟩
  have hrows6 : d6.rows
      = ((((((r0 ++ [v1h]) ++ [PF.nan]) ++ [PF.nan]) ++ [PF.nan]) ++ [PF.nan])
          ++ [v6h]) :: C6 := by
    rw [← hd6, setCol_rows_of_not_mem _ _ _ f6, hrows5, hv6,
      List.zipWith_cons_cons, hC6]
  obtain ⟨C7, hC7⟩ :
      ∃ x, List.zipWith (fun (r : List PF) (y : PF) => r ++ [y]) C6 v7t = x :=
    ⟨_, rfl⟩
  have hrows7 : d7.rows
      = (((((((r0 ++ [v1h]) ++ [PF.nan]) ++ [PF.nan]) ++ [PF.nan]) ++ [PF.nan])
          ++ [v6h]) ++ [v7h]) :: C7 := by
    rw [← hd7, setCol_rows_of_not_mem _ _ _ f7, hrows6, hv7,
      List.zipWith_cons_cons, hC7]
  have hC1len : C1.length = rest.length := by
    rw [← hC1]
    simp [hv1len]
  have hC2len : C2.length = rest.length := by
    rw [← hC2]
    simp [hC1len, hv2len]
  have hC3len : C3.length = rest.length := by
    rw [← hC3]
    simp [hC2len, hv3len]
  have hC4len : C4.length = rest.length := by
    rw [← hC4]
    simp [hC3len, hv4len]
  have hC5len : C5.length = rest.length := by
    rw [← hC5]
    simp [hC4len, hv5len]
  have hC6len : C6.length = rest.length := by
    rw [← hC6]
    simp [hC5len, hv6len]
  have hC7len : C7.length = rest.length := by
    rw [← hC7]
    simp [hC6len, hv7len]
  have hC1num : ∀ q ∈ C1, q.all PF.isNum = true := by
    intro q hq
    rw [← hC1] at hq
    obtain ⟨a, ha, b, hb, rfl⟩ := mem_zipWith hq
    simp only [List.all_append, List.all_cons, List.all_nil, Bool.and_true,
      Bool.and_eq_true]
    exact ⟨List.all_eq_true.mpr (hnum a (hrestmem a ha)), hv1tnum b hb⟩
  have hC2num : ∀ q ∈ C2, q.all PF.isNum = true := by
    intro q hq
    rw [← hC2] at hq
    obtain ⟨a, ha, b, hb, rfl⟩ := mem_zipWith hq
    simp only [List.all_append, List.all_cons, List.all_nil, Bool.and_true,
      Bool.and_eq_true]
    exact ⟨hC1num a ha, hv2tnum b hb⟩
  have hC3num : ∀ q ∈ C3, q.all PF.isNum = true := by
    intro q hq
    rw [← hC3] at hq
    obtain ⟨a, ha, b, hb, rfl⟩ := mem_zipWith hq
    simp only [List.all_append, List.all_cons, List.all_nil, Bool.and_true,
      Bool.and_eq_true]
    exact ⟨hC2num a ha, hv3tnum b hb⟩
  have hC4num : ∀ q ∈ C4, q.all PF.isNum = true := by
    intro q hq
    rw [← hC4] at hq
    obtain ⟨a, ha, b, hb, rfl⟩ := mem_zipWith hq
    simp only [List.all_append, List.all_cons, List.all_nil, Bool.and_true,
      Bool.and_eq_true]
    exact ⟨hC3num a ha, hv4tnum b hb⟩
  have hC5num : ∀ q ∈ C5, q.all PF.isNum = true := by
    intro q hq
    rw [← hC5] at hq
    obtain ⟨a, ha, b, hb, rfl⟩ := mem_zipWith hq
    simp only [List.all_append, List.all_cons, List.all_nil, Bool.and_true,
      Bool.and_eq_true]
    exact ⟨hC4num a ha, hv5tnum b hb⟩
  have hC6num : ∀ q ∈ C6, q.all PF.isNum = true := by
    intro q hq
    rw [← hC6] at hq
    obtain ⟨a, ha, b, hb, rfl⟩ := mem_zipWith hq
    simp only [List.all_append, List.all_cons, List.all_nil, Bool.and_true,
      Bool.and_eq_true]
    exact ⟨hC5num a ha, hv6tnum b hb⟩
  have hC7num : ∀ q ∈ C7, q.all PF.isNum = true := by
    intro q hq
    rw [← hC7] at hq
    obtain ⟨a, ha, b, hb, rfl⟩ := mem_zipWith hq
    simp only [List.all_append, List.all_cons, List.all_nil, Bool.and_true,
      Bool.and_eq_true]
    exact ⟨hC6num a ha, hv7tnum b hb⟩
  have hC1elen : ∀ q ∈ C1, df.cols.length ≤ q.length := by
    intro q hq
    rw [← hC1] at hq
    obtain ⟨a, ha, b, hb, rfl⟩ := mem_zipWith hq
    rw [List.length_append]
    have h := hwf a (hrestmem a ha)
    omega
  have hC2elen : ∀ q ∈ C2, df.cols.length ≤ q.length := by
    intro q hq
    rw [← hC2] at hq
    obtain ⟨a, ha, b, hb, rfl⟩ := mem_zipWith hq
    rw [List.length_append]
    have h := hC1elen a ha
    omega
  have hC3elen : ∀ q ∈ C3, df.cols.length ≤ q.length := by
    intro q hq
    rw [← hC3] at hq
    obtain ⟨a, ha, b, hb, rfl⟩ := mem_zipWith hq
    rw [List.length_append]
    have h := hC2elen a ha
    omega
  have hC4elen : ∀ q ∈ C4, df.cols.length ≤ q.length := by
    intro q hq
    rw [← hC4] at hq
    obtain ⟨a, ha, b, hb, rfl⟩ := mem_zipWith hq
    rw [List.length_append]
    have h := hC3elen a ha
    omega
  have hC5elen : ∀ q ∈ C5, df.cols.length ≤ q.length := by
    intro q hq
    rw [← hC5] at hq
    obtain ⟨a, ha, b, hb, rfl⟩ := mem_zipWith hq
    rw [List.length_append]
    have h := hC4elen a ha
    omega
  have hC6elen : ∀ q ∈ C6, df.cols.length ≤ q.length := by
    intro q hq
    rw [← hC6] at hq
    obtain ⟨a, ha, b, hb, rfl⟩ := mem_zipWith hq
    rw [List.length_append]
    have h := hC5elen a ha
    omega
  have hidx7 : d7.idx = df.idx := by
    rw [← hd7, setCol_idx, ← hd6, setCol_idx, ← hd5, setCol_idx, ← hd4,
      setCol_idx, ← hd3, setCol_idx, ← hd2, setCol_idx, ← hd1, setCol_idx]
  obtain ⟨i0, irest, hI⟩ : ∃ a l, df.idx = a :: l := by
    cases hcase : df.idx with
    | nil =>
      rw [hcase, List.length_nil, hR] at hidx
      simp at hidx
    | cons a l => exact ⟨a, l, rfl⟩
  have hIlen : irest.length = rest.length := by
    have h := hidx
    rw [hI, hR] at h
    simpa using h
  have hheadfalse : (((((((r0 ++ [v1h]) ++ [PF.nan]) ++ [PF.nan]) ++ [PF.nan])
      ++ [PF.nan]) ++ [v6h]) ++ [v7h]).all PF.isNum = false := by
    simp [List.all_append, PF.isNum]
  have hkeep : (irest.zip C7).filter (fun p => p.2.all PF.isNum)
      = irest.zip C7 :=
    List.filter_eq_self.mpr (fun q hq => hC7num q.2 (List.of_mem_zip hq).2)
  have hdrop : d7.dropna = { cols := d7.cols, idx := irest, rows := C7 } := by
    unfold Df.dropna
    rw [hidx7, hI, hrows7]
    dsimp only
    rw [List.zip_cons_cons, List.filter_cons]
    simp only [hheadfalse, Bool.false_eq_true, if_false]
    rw [hkeep,
      List.map_fst_zip _ _ (by rw [hIlen, hC7len]),
      List.map_snd_zip _ _ (by rw [hIlen, hC7len])]
  have hdropped : (d7.dropna).resetIndex
      = { cols := d7.cols, idx := (List.range rest.length).map Int.ofNat,
          rows := C7 } := by
    rw [hdrop]
    unfold Df.resetIndex
    dsimp only
    rw [hC7len]
  have hsnd : (finalSpecModelCalc ext dt df).2
      = { cols := d7.cols,
          idx := (((List.range rest.length).map Int.ofNat) ++ [-1]).map
            (fun i => i + 1),
          rows := C7 ++ [List.replicate d7.cols.length (PF.num 0)] } := by
    unfold finalSpecModelCalc
    dsimp only
    rw [hd1, hd2, hd3, hd4, hd5, hd6, hd7, hdropped]
  have htake : ∀ (a : List PF) (b : PF), df.cols.length ≤ a.length →
      (a ++ [b]).take df.cols.length = a.take df.cols.length := by
    intro a b h
    rw [List.take_append_eq_append_take]
    simp [Nat.sub_eq_zero_of_le h]
  have hbase : rest.map (fun r => r.take df.cols.length) = rest := by
    conv_rhs => rw [← List.map_id rest]
    refine List.map_congr_left ?_
    intro a ha
    rw [← hwf a (hrestmem a ha)]
    simp
  refine ⟨?_, ?_, ?_, ?_, ?_, ?_⟩
  · rw [hsnd]
    exact hcols7
  · rw [hsnd, hrestlen]
    simp only [List.map_append, List.map_map, Function.comp, Nat.add_sub_cancel,
      List.map_cons, List.map_nil]
    norm_num
  · rw [hsnd, hrestlen]
    simp [hC7len]
  · rw [hsnd]
    show (C7 ++ [List.replicate d7.cols.length (PF.num 0)]).getLast?
      = some (List.replicate (df.cols ++ derivedNames).length (PF.num 0))
    rw [List.getLast?_concat, hcols7]
  · rw [hsnd]
    show (C7 ++ [List.replicate d7.cols.length (PF.num 0)]).dropLast.map
      (fun r => r.take df.cols.length) = df.rows.tail
    rw [List.dropLast_concat, hR, List.tail_cons, ← hC7]
    rw [map_zipWith_eq_left _ _ (fun r => r.take df.cols.length) C6 v7t
      (by rw [hv7len, hC6len]) (fun a ha b hb => htake a b (hC6elen a ha))]
    rw [← hC6]
    rw [map_zipWith_eq_left _ _ (fun r => r.take df.cols.length) C5 v6t
      (by rw [hv6len, hC5len]) (fun a ha b hb => htake a b (hC5elen a ha))]
    rw [← hC5]
    rw [map_zipWith_eq_left _ _ (fun r => r.take df.cols.length) C4 v5t
      (by rw [hv5len, hC4len]) (fun a ha b hb => htake a b (hC4elen a ha))]
    rw [← hC4]
    rw [map_zipWith_eq_left _ _ (fun r => r.take df.cols.length) C3 v4t
      (by rw [hv4len, hC3len]) (fun a ha b hb => htake a b (hC3elen a ha))]
    rw [← hC3]
    rw [map_zipWith_eq_left _ _ (fun r => r.take df.cols.length) C2 v3t
      (by rw [hv3len, hC2len]) (fun a ha b hb => htake a b (hC2elen a ha))]
    rw [← hC2]
    rw [map_zipWith_eq_left _ _ (fun r => r.take df.cols.length) C1 v2t
      (by rw [hv2len, hC1len]) (fun a ha b hb => htake a b (hC1elen a ha))]
    rw [← hC1]
    rw [map_zipWith_eq_left _ _ (fun r => r.take df.cols.length) rest v1t
      (by rw [hv1len])
      (fun a ha b hb => htake a b (hwf a (hrestmem a ha)).ge)]
    exact hbase
  · unfold rowGet
    rw [colPos_append df.cols derivedNames "is_moving" him]
    have hlt : colPos df.cols "is_moving"
        < (List.replicate (df.cols ++ derivedNames).length (PF.num 0)).length := by
      rw [List.length_replicate, List.length_append]
      have h := colPos_lt_length df.cols "is_moving" him
      omega
    rw [List.getD_eq_getElem _ _ hlt, List.getElem_replicate]
    decide

/-- C8 counterexample: for the toy two-row flight frame the reference
derivation does NOT put the synthetic zero row at the head — the set's first
row is the surviving data row (first index label `1`), and the all-zero row
sits at the tail with label `0`. -/
theorem C8_counterexample :
    ((finalSpecModelCalc idExt 1 twoRowFlightDf).2).idx = [1, 0] ∧
      ((finalSpecModelCalc idExt 1 twoRowFlightDf).2).rows.head?
        ≠ some (List.replicate
            ((finalSpecModelCalc idExt 1 twoRowFlightDf).2).cols.length
            (PF.num 0)) ∧
      ((finalSpecModelCalc idExt 1 twoRowFlightDf).2).rows.getLast?
        = some (List.replicate
            ((finalSpecModelCalc idExt 1 twoRowFlightDf).2).cols.length
            (PF.num 0)) := by
  refine ⟨by decide, by decide, by decide⟩

/-- Witness: the C8 amended theorem applied to the toy two-row flight frame. -/
theorem C8_amended_zero_row_at_tail_witness :
    ((finalSpecModelCalc idExt 1 twoRowFlightDf).2).cols
        = twoRowFlightDf.cols ++ derivedNames ∧
      ((finalSpecModelCalc idExt 1 twoRowFlightDf).2).idx
        = (List.range (twoRowFlightDf.rows.length - 1)).map
            (fun i => Int.ofNat i + 1) ++ [0] ∧
      ((finalSpecModelCalc idExt 1 twoRowFlightDf).2).rows.length
        = twoRowFlightDf.rows.length ∧
      ((finalSpecModelCalc idExt 1 twoRowFlightDf).2).rows.getLast?
        = some (List.replicate
            (twoRowFlightDf.cols ++ derivedNames).length (PF.num 0)) ∧
      ((finalSpecModelCalc idExt 1 twoRowFlightDf).2).rows.dropLast.map
          (fun r => r.take twoRowFlightDf.cols.length)
        = twoRowFlightDf.rows.tail ∧
      PF.eqFalse (rowGet (twoRowFlightDf.cols ++ derivedNames)
        (List.replicate (twoRowFlightDf.cols ++ derivedNames).length (PF.num 0))
        "is_moving") = true :=
  C8_amended_zero_row_at_tail idExt 1 twoRowFlightDf (by decide) (by decide)
    (by decide) (by decide) (by decide) (by decide) (by decide) (by decide)
    (by decide) (by decide)
